import Mathlib

/-!
Verification development for the Perth pane/intent manager.

The definitions below are a shallow embedding of the Rust sources:
`src/state.rs` (key schema, intent history, keyspace migration),
`src/llm/circuit_breaker.rs`, `src/llm/mod.rs` (provider selection),
`src/bloodbank.rs` (event emissions), `src/orchestrator.rs`
(`log_intent`, `create_tab`, `snapshot`) and `src/types.rs`
(`TabRecord`, `IntentEntry`).  Redis is modelled as an association
list of keys; machine integers (`u32`, `u64`/`usize`) are modelled as
`Nat` with explicit `% 2 ^ 32` / `% 2 ^ 64` where the Rust code can
wrap, and the `usize → isize` cast of `get_history` is modelled
bit-faithfully.  Asynchronous effects are modelled by explicit state
passing; fallible operations return `Except`/`Option`.
-/

namespace Perth

/-- Character-list infix test: `listContainsSub l p` is true iff `p` occurs
as a contiguous substring of `l`.  Model of Rust `str::contains`. -/
def listContainsSub (l p : List Char) : Bool :=
  (List.range (l.length + 1)).any (fun i => p.isPrefixOf (l.drop i))

/-- Model of Rust `str::contains` on strings. -/
def strContainsSubstr (s pat : String) : Bool :=
  listContainsSub s.toList pat.toList

/-- Model of Rust `str::starts_with` (used via `strip_prefix`). -/
def strIsPrefixOf (p s : String) : Bool :=
  p.toList.isPrefixOf s.toList

/-- Model of Rust `str::strip_prefix`: `some` of the remainder when `p`
is a prefix of `s`, otherwise `none`. -/
def stripPrefixStr (p s : String) : Option String :=
  if strIsPrefixOf p s then some (String.mk (s.toList.drop p.toList.length)) else none

/-- A single-quote character as a string (used when rebuilding the exact
Rust error-message literals). -/
def sq : String := String.mk [Char.ofNat 39]

-- ===========================================================================
-- Redis list primitives (history lists)
-- ===========================================================================

/-- Model of Redis `LPUSH`: the new element becomes the head (newest first). -/
def lpush (l : List String) (x : String) : List String := x :: l

/-- Redis effective index: a negative index counts from the end of the list. -/
def redisEffIndex (len i : Int) : Int := if i < 0 then len + i else i

/-- Model of Redis `LRANGE key start stop` (both ends inclusive, negative
indices count from the end, out-of-range indices are clamped). -/
def lrange (l : List String) (start stop : Int) : List String :=
  if redisEffIndex l.length stop < max (redisEffIndex l.length start) 0
      ∨ (l.length : Int) ≤ max (redisEffIndex l.length start) 0 then []
  else (l.drop (max (redisEffIndex l.length start) 0).toNat).take
    ((redisEffIndex l.length stop).toNat - (max (redisEffIndex l.length start) 0).toNat + 1)

/-- Model of Redis `LTRIM key start stop`: the list is trimmed to the
`LRANGE` window. -/
def ltrim (l : List String) (start stop : Int) : List String :=
  lrange l start stop

-- ===========================================================================
-- Rust integer casts (src/state.rs get_history computes `(limit - 1) as isize`)
-- ===========================================================================

/-- Rust `usize` subtraction under two's-complement wrapping (release-build
semantics of `limit - 1` in `get_history`). -/
def usizeWrappingSub (a b : Nat) : Nat :=
  (a % 2 ^ 64 + (2 ^ 64 - b % 2 ^ 64)) % 2 ^ 64

/-- Rust `as isize` cast from `usize`: reinterpret the 64-bit pattern as a
signed integer. -/
def usizeAsIsize (n : Nat) : Int :=
  if n % 2 ^ 64 < 2 ^ 63 then ((n % 2 ^ 64 : Nat) : Int)
  else ((n % 2 ^ 64 : Nat) : Int) - 2 ^ 64

-- ===========================================================================
-- Intent history (src/state.rs log_intent / get_history)
-- ===========================================================================

/-- src/state.rs: `DEFAULT_HISTORY_LIMIT`. -/
def DEFAULT_HISTORY_LIMIT : Nat := 100

/-- A Redis hash: field/value pairs. -/
abbrev Hash := List (String × String)

/-- src/state.rs hash-field write (`HSET`): overwrite the field when present,
append it otherwise. -/
def hashSetField (h : Hash) (f v : String) : Hash :=
  if h.any (fun p => p.1 == f) then h.map (fun p => if p.1 == f then (f, v) else p)
  else h ++ [(f, v)]

/-- Iterated `HSET` on one hash (model of `HSET key f₁ v₁ f₂ v₂ …`). -/
def hashSetFields (h : Hash) (fields : List (String × String)) : Hash :=
  fields.foldl (fun acc p => hashSetField acc p.1 p.2) h

/-- The two Redis keys `log_intent` touches for one pane: the history list
`perth:pane:{name}:history` and the pane hash `znav:pane:{name}`. -/
structure PaneChannel where
  history : List String
  paneHash : Hash
deriving Repr, DecidableEq

/-- The empty pane state (no history list, no pane hash). -/
def emptyPaneChannel : PaneChannel := ⟨[], []⟩

/-- Serialization interface for intent entries.  `serde_json` round-tripping
is abstracted as an encoder `enc` into the stored string and a decoder `dec`;
`summaryOf`/`timestampOf` extract the `summary` and RFC 3339 `timestamp`
fields written onto the pane hash. -/
structure EntryCodec (ε : Type) where
  enc : ε → String
  dec : String → Except String ε
  summaryOf : ε → String
  timestampOf : ε → String

/-- src/state.rs `StateManager::log_intent`: serialize the entry, `LPUSH`
it onto the history list, set `last_intent`/`last_intent_at` on the pane
hash, then `LTRIM` the list to indices `0 … DEFAULT_HISTORY_LIMIT - 1`. -/
def log_intent {ε : Type} (c : EntryCodec ε) (pc : PaneChannel) (entry : ε) : PaneChannel :=
  let json := c.enc entry
  let h1 := lpush pc.history json
  let ph1 := hashSetField pc.paneHash ("last_intent") (c.summaryOf entry)
  let ph2 := hashSetField ph1 ("last_intent_at") (c.timestampOf entry)
  { history := ltrim h1 0 ((DEFAULT_HISTORY_LIMIT : Int) - 1), paneHash := ph2 }

/-- The element-decoding loop of `StateManager::get_history`: decode each
stored string in order, failing the whole operation at the first failure. -/
def decodeAll {ε : Type} (dec : String → Except String ε) :
    List String → Except String (List ε)
  | [] => Except.ok []
  | s :: rest =>
    match dec s with
    | Except.error e => Except.error e
    | Except.ok v =>
      match decodeAll dec rest with
      | Except.error e => Except.error e
      | Except.ok vs => Except.ok (v :: vs)

/-- src/state.rs `StateManager::get_history`: `LRANGE 0 (limit-1)` with the
default limit `DEFAULT_HISTORY_LIMIT`, decoding every element; a decode
failure fails the whole call.  The end index reproduces the Rust expression
`(limit - 1) as isize` under wrapping `usize` arithmetic. -/
def get_history {ε : Type} (c : EntryCodec ε) (pc : PaneChannel) (limit : Option Nat) :
    Except String (List ε) :=
  decodeAll c.dec
    (lrange pc.history 0 (usizeAsIsize (usizeWrappingSub (limit.getD DEFAULT_HISTORY_LIMIT) 1)))

-- ===========================================================================
-- Redis hash keyspace (src/state.rs pane records and migration)
-- ===========================================================================

/-- The hash keyspace: an association list from keys to hashes.  A key is
present iff it has an entry (Redis deletes empty hashes, so well-formed
stores bind every key to a nonempty hash). -/
abbrev Store := List (String × Hash)

/-- The keys of a store, in scan order. -/
def storeKeys (st : Store) : List String := st.map Prod.fst

/-- Model of Redis `EXISTS key`. -/
def keyExists (st : Store) (k : String) : Bool := (storeKeys st).contains k

/-- Model of Redis `HGETALL key`: the bound hash, or `[]` when the key is
absent (Redis returns an empty map then). -/
def hgetall (st : Store) (k : String) : Hash :=
  match st.find? (fun e => e.1 == k) with
  | some e => e.2
  | none => []

/-- Model of Redis `HSET key f₁ v₁ …` / `hset_multiple`: update the bound
hash field-by-field, creating the key when absent. -/
def hset_multiple (st : Store) (k : String) (fields : List (String × String)) : Store :=
  if keyExists st k then
    st.map (fun e => if e.1 == k then (k, hashSetFields e.2 fields) else e)
  else st ++ [(k, hashSetFields [] fields)]

/-- Model of a single-field Redis `HSET`. -/
def hset (st : Store) (k f v : String) : Store := hset_multiple st k [(f, v)]

/-- Model of Redis `SCAN MATCH pre*`: every key beginning with `pre`. -/
def scanMatchPrefix (st : Store) (pre : String) : List String :=
  (storeKeys st).filter (fun k => strIsPrefixOf pre k)

-- ===========================================================================
-- Pane records (src/state.rs, src/types.rs PaneRecord)
-- ===========================================================================

/-- src/types.rs `PaneRecord` (meta as an association list in hash order). -/
structure PaneRecord where
  pane_name : String
  session : String
  tab : String
  pane_id : Option String
  created_at : String
  last_seen : String
  last_accessed : String
  meta : List (String × String)
  stale : Bool
deriving Repr, DecidableEq

/-- src/state.rs `pane_key`: `format!("znav:pane:{}", pane_name)`. -/
def pane_key (pane_name : String) : String := "znav:pane:" ++ pane_name

/-- src/state.rs `history_key`: `format!("perth:pane:{}:history", pane_name)`. -/
def history_key (pane_name : String) : String := "perth:pane:" ++ pane_name ++ ":history"

/-- src/state.rs `tab_key`: `format!("perth:tab:{}:{}", session, tab_name)`. -/
def tab_key (tab_name session : String) : String := "perth:tab:" ++ session ++ ":" ++ tab_name

/-- The accumulator defaults of `StateManager::get_pane` before folding over
the hash fields. -/
def initialPaneRecord (pane_name : String) : PaneRecord :=
  ⟨pane_name, "", "", none, "", "", "", [], false⟩

/-- One step of the field loop of `StateManager::get_pane`: `meta:`-prefixed
fields populate `meta`, the named fields populate the record, anything else
is ignored. -/
def rehydratePaneStep (r : PaneRecord) (kv : String × String) : PaneRecord :=
  match stripPrefixStr ("meta:") kv.1 with
  | some mk => { r with meta := r.meta ++ [(mk, kv.2)] }
  | none =>
    if kv.1 == "session" then { r with session := kv.2 }
    else if kv.1 == "tab" then { r with tab := kv.2 }
    else if kv.1 == "pane_id" then { r with pane_id := some kv.2 }
    else if kv.1 == "created_at" then { r with created_at := kv.2 }
    else if kv.1 == "last_seen" then { r with last_seen := kv.2 }
    else if kv.1 == "last_accessed" then { r with last_accessed := kv.2 }
    else if kv.1 == "stale" then { r with stale := kv.2 == "true" }
    else r

/-- src/state.rs `StateManager::get_pane`: `HGETALL` at `pane_key`, `none`
on an empty map, otherwise the rehydrated record. -/
def get_pane (st : Store) (pane_name : String) : Option PaneRecord :=
  let m := hgetall st (pane_key pane_name)
  if m.isEmpty then none
  else some (m.foldl rehydratePaneStep (initialPaneRecord pane_name))

/-- The field list `StateManager::upsert_pane` writes. -/
def upsertPaneFields (record : PaneRecord) : List (String × String) :=
  [("session", record.session), ("tab", record.tab),
   ("created_at", record.created_at), ("last_seen", record.last_seen),
   ("last_accessed", record.last_accessed), ("stale", "false")]
  ++ (match record.pane_id with
      | some pid => [("pane_id", pid)]
      | none => [])
  ++ record.meta.map (fun p => ("meta:" ++ p.1, p.2))

/-- src/state.rs `StateManager::upsert_pane`: full field write at `pane_key`. -/
def upsert_pane (st : Store) (record : PaneRecord) : Store :=
  hset_multiple st (pane_key record.pane_name) (upsertPaneFields record)

/-- src/state.rs `StateManager::touch_pane` (with `now` passed explicitly):
stamps `last_accessed`/`last_seen`, clears `stale`, merges `meta:` updates. -/
def touch_pane (st : Store) (pane_name now : String)
    (meta_updates : List (String × String)) : Store :=
  hset_multiple st (pane_key pane_name)
    ([("last_accessed", now), ("last_seen", now), ("stale", "false")]
      ++ meta_updates.map (fun p => ("meta:" ++ p.1, p.2)))

/-- src/state.rs `StateManager::mark_seen`. -/
def mark_seen (st : Store) (pane_name now : String) : Store :=
  hset_multiple st (pane_key pane_name) [("last_seen", now), ("stale", "false")]

/-- src/state.rs `StateManager::mark_stale`. -/
def mark_stale (st : Store) (pane_name : String) : Store :=
  hset st (pane_key pane_name) ("stale") ("true")

/-- src/state.rs `StateManager::list_pane_names`: scan `znav:pane:*` and
strip the prefix. -/
def list_pane_names (st : Store) : List String :=
  (scanMatchPrefix st ("znav:pane:")).filterMap (fun k => stripPrefixStr ("znav:pane:") k)

-- ===========================================================================
-- Keyspace migration (src/state.rs migrate_keyspace)
-- ===========================================================================

/-- src/state.rs `MigrationResult`. -/
structure MigrationResult where
  total_keys : Nat
  migrated_count : Nat
  skipped_count : Nat
  error_count : Nat
  migrated : List String
  skipped : List String
  would_migrate : List String
  errors : List String
deriving Repr, DecidableEq

/-- `MigrationResult::default()`. -/
def emptyMigrationResult : MigrationResult := ⟨0, 0, 0, 0, [], [], [], []⟩

/-- The scan phase of `migrate_keyspace`: all `znav:pane:*` keys except
those containing `:history`. -/
def scanZnavPane (st : Store) : List String :=
  (storeKeys st).filter
    (fun k => strIsPrefixOf ("znav:pane:") k && !(strContainsSubstr k (":history")))

/-- One iteration of the `migrate_keyspace` loop, threading the result
tallies and the store. -/
def migStep (dry_run : Bool) (acc : MigrationResult × Store) (old_key : String) :
    MigrationResult × Store :=
  let result := acc.1
  let st := acc.2
  match stripPrefixStr ("znav:pane:") old_key with
  | none =>
    ({ result with
        errors := result.errors ++ ["Invalid key format: " ++ old_key],
        error_count := result.error_count + 1 }, st)
  | some pane_name =>
    let new_key := "perth:pane:" ++ pane_name
    if keyExists st new_key then
      ({ result with
         skipped := result.skipped ++ [old_key ++ " -> " ++ new_key ++ " (already exists)"],
         skipped_count := result.skipped_count + 1 }, st)
    else if dry_run then
      ({ result with
         would_migrate := result.would_migrate ++ [old_key ++ " -> " ++ new_key],
         migrated_count := result.migrated_count + 1 }, st)
    else
      let data := hgetall st old_key
      if !data.isEmpty then
        ({ result with
           migrated := result.migrated ++ [old_key ++ " -> " ++ new_key],
           migrated_count := result.migrated_count + 1 }, hset_multiple st new_key data)
      else
        ({ result with
            skipped := result.skipped ++ [old_key ++ " (empty)"],
            skipped_count := result.skipped_count + 1 }, st)

/-- src/state.rs `StateManager::migrate_keyspace`: scan the legacy keys,
then process each in order, returning the tallies and the final store. -/
def migrate_keyspace (st : Store) (dry_run : Bool) : MigrationResult × Store :=
  let znav_keys := scanZnavPane st
  znav_keys.foldl (migStep dry_run)
    ({ emptyMigrationResult with total_keys := znav_keys.length }, st)

/-- Store well-formedness: keys are distinct (Redis binds each key once). -/
def WFStore (st : Store) : Prop := (storeKeys st).Nodup

/-- Redis never keeps an empty hash: every bound hash is nonempty. -/
def NonemptyHashes (st : Store) : Prop := ∀ e ∈ st, e.2 ≠ []

-- ===========================================================================
-- Circuit breaker (src/llm/circuit_breaker.rs)
-- ===========================================================================

/-- src/llm/circuit_breaker.rs `CircuitState`. -/
inductive CircuitState where
  | Closed
  | Open
  | HalfOpen
deriving Repr, DecidableEq

/-- src/llm/circuit_breaker.rs `CircuitBreakerConfig` (cooldown in millis,
as the code converts the `Duration` with `as_millis`). -/
structure CircuitBreakerConfig where
  failure_threshold : Nat
  cooldown_millis : Nat
deriving Repr, DecidableEq

/-- `CircuitBreakerConfig::default()`: threshold 3, cooldown 5 minutes. -/
def defaultCBConfig : CircuitBreakerConfig := ⟨3, 5 * 60 * 1000⟩

/-- src/llm/circuit_breaker.rs `CircuitBreaker` state: the `u32` failure
counter and the `u64` open timestamp in epoch millis (0 = never opened). -/
structure CircuitBreaker where
  consecutive_failures : Nat
  opened_at : Nat
deriving Repr, DecidableEq

/-- `CircuitBreaker::new()`: zero failures, no open timestamp. -/
def CircuitBreaker.initial : CircuitBreaker := ⟨0, 0⟩

/-- src/llm/circuit_breaker.rs `CircuitBreaker::state`, with the current
epoch-millis clock passed explicitly.  `saturating_sub` is `Nat` subtraction. -/
def cbState (cfg : CircuitBreakerConfig) (cb : CircuitBreaker) (now : Nat) : CircuitState :=
  if cb.consecutive_failures < cfg.failure_threshold then CircuitState.Closed
  else if cb.opened_at = 0 then CircuitState.Open
  else if cfg.cooldown_millis ≤ now - cb.opened_at then CircuitState.HalfOpen
  else CircuitState.Open

/-- src/llm/circuit_breaker.rs `CircuitBreaker::allow_request`: OK in Closed
and HalfOpen; in Open, the error message carries the failure count and the
remaining cooldown in whole seconds. -/
def allow_request (cfg : CircuitBreakerConfig) (cb : CircuitBreaker) (now : Nat) :
    Except String Unit :=
  match cbState cfg cb now with
  | CircuitState.Closed => Except.ok ()
  | CircuitState.HalfOpen => Except.ok ()
  | CircuitState.Open =>
    let elapsed := now - cb.opened_at
    let remainingSecs := (cfg.cooldown_millis - elapsed) / 1000
    Except.error
      ("LLM circuit breaker is open due to " ++ toString cb.consecutive_failures
        ++ " consecutive failures.\nWill retry in " ++ toString remainingSecs
        ++ " seconds.\n\nYou can still log entries manually:\nzdrive pane log <PANE> <SUMMARY>")

/-- src/llm/circuit_breaker.rs `CircuitBreaker::record_success`: reset both
the counter and the open timestamp. -/
def record_success (_cb : CircuitBreaker) : CircuitBreaker := ⟨0, 0⟩

/-- src/llm/circuit_breaker.rs `CircuitBreaker::record_failure`: increment
the `u32` counter (wrapping); stamp the open timestamp only when the new
count equals the threshold exactly. -/
def record_failure (cfg : CircuitBreakerConfig) (cb : CircuitBreaker) (now : Nat) :
    CircuitBreaker :=
  let new_count := (cb.consecutive_failures + 1) % 2 ^ 32
  ⟨new_count, if new_count = cfg.failure_threshold then now else cb.opened_at⟩

/-- Whether `allow_request` returns `Ok`. -/
def allowsRequest (cfg : CircuitBreakerConfig) (cb : CircuitBreaker) (now : Nat) : Bool :=
  match allow_request cfg cb now with
  | Except.ok _ => true
  | Except.error _ => false

-- ===========================================================================
-- Intent entries and event emissions (src/types.rs, src/bloodbank.rs)
-- ===========================================================================

/-- src/types.rs `IntentType`. -/
inductive IntentType where
  | Milestone
  | Checkpoint
  | Exploration
deriving Repr, DecidableEq

/-- src/types.rs `IntentSource`. -/
inductive IntentSource where
  | Manual
  | Automated
  | Agent
deriving Repr, DecidableEq

/-- src/types.rs `IntentEntry` (the UUID `id` and the `timestamp` are
modelled as strings). -/
structure IntentEntry where
  id : String
  timestamp : String
  summary : String
  entry_type : IntentType
  artifacts : List String
  commands_run : Option Nat
  goal_delta : Option String
  source : IntentSource
deriving Repr, DecidableEq

/-- src/types.rs `IntentEntry::entry_type_str`. -/
def entry_type_str : IntentType → String
  | IntentType.Milestone => "MILESTONE"
  | IntentType.Checkpoint => "CHECKPOINT"
  | IntentType.Exploration => "EXPLORATION"

/-- src/types.rs `IntentEntry::source_str`. -/
def source_str : IntentSource → String
  | IntentSource.Manual => "manual"
  | IntentSource.Automated => "automated"
  | IntentSource.Agent => "agent"

/-- Rust `str::to_lowercase` (the event payloads only apply it to ASCII). -/
def strToLowercase (s : String) : String := String.mk (s.toList.map Char.toLower)

/-- src/bloodbank.rs `EventMetadata`. -/
structure EventMetadata where
  source : String
  version : String
  correlation_id : Option String
  session : Option String
deriving Repr, DecidableEq

/-- The compile-time crate version embedded by `env!("CARGO_PKG_VERSION")`,
kept abstract as a named constant. -/
def cargoPkgVersion : String := "CARGO_PKG_VERSION"

/-- src/bloodbank.rs `EventMetadata::default()`. -/
def defaultEventMetadata : EventMetadata :=
  ⟨"perth", cargoPkgVersion, none, none⟩

/-- src/bloodbank.rs `EventMetadata::with_session`. -/
def EventMetadata.with_session (m : EventMetadata) (s : String) : EventMetadata :=
  { m with session := some s }

/-- src/bloodbank.rs `IntentLoggedPayload`. -/
structure IntentLoggedPayload where
  pane_name : String
  intent_id : String
  summary : String
  entry_type : String
  source : String
  artifacts : List String
deriving Repr, DecidableEq

/-- src/bloodbank.rs `IntentLoggedPayload::new`. -/
def IntentLoggedPayload.new (pane_name : String) (entry : IntentEntry) : IntentLoggedPayload :=
  ⟨pane_name, entry.id, entry.summary, strToLowercase (entry_type_str entry.entry_type),
    source_str entry.source, entry.artifacts⟩

/-- src/bloodbank.rs `MilestoneRecordedPayload`. -/
structure MilestoneRecordedPayload where
  pane_name : String
  intent_id : String
  summary : String
  artifacts : List String
deriving Repr, DecidableEq

/-- src/bloodbank.rs `MilestoneRecordedPayload::new`. -/
def MilestoneRecordedPayload.new (pane_name : String) (entry : IntentEntry) :
    MilestoneRecordedPayload :=
  ⟨pane_name, entry.id, entry.summary, entry.artifacts⟩

/-- The payload of one publisher emission from `intent_logged`. -/
inductive EventPayload where
  | intentLogged (p : IntentLoggedPayload)
  | milestoneRecorded (p : MilestoneRecordedPayload)
deriving Repr, DecidableEq

/-- One `EventPublisher::publish` call: routing key (= event type), payload
and metadata envelope fields. -/
structure Emission where
  event_type : String
  payload : EventPayload
  metadata : EventMetadata
deriving Repr, DecidableEq

/-- The `intent_id` carried by an emission payload. -/
def Emission.intentId (em : Emission) : String :=
  match em.payload with
  | EventPayload.intentLogged p => p.intent_id
  | EventPayload.milestoneRecorded p => p.intent_id

/-- src/bloodbank.rs `EventPublisher::intent_logged`: always publish
`perth.intent.logged`; when the entry type is milestone, additionally
publish `perth.milestone.recorded` with the same metadata. -/
def intent_logged (pane_name : String) (entry : IntentEntry) (session : Option String) :
    List Emission :=
  let payload := IntentLoggedPayload.new pane_name entry
  let metadata := match session with
    | some s => defaultEventMetadata.with_session s
    | none => defaultEventMetadata
  let first : Emission := ⟨"perth.intent.logged", EventPayload.intentLogged payload, metadata⟩
  if entry.entry_type = IntentType.Milestone then
    [first, ⟨"perth.milestone.recorded",
      EventPayload.milestoneRecorded (MilestoneRecordedPayload.new pane_name entry), metadata⟩]
  else [first]

/-- src/orchestrator.rs `Orchestrator::log_intent`: delegate to the state
store (see `log_intent` on `PaneChannel`) and emit via
`EventPublisher::intent_logged` with the active session. -/
def orchestratorLogIntentEmissions (pane_name : String) (entry : IntentEntry)
    (active_session : Option String) : List Emission :=
  intent_logged pane_name entry active_session

-- ===========================================================================
-- Tab records and create_tab (src/types.rs, src/orchestrator.rs)
-- ===========================================================================

/-- src/types.rs `TabRecord`. -/
structure TabRecord where
  tab_name : String
  session : String
  correlation_id : Option String
  created_at : String
  last_accessed : String
  meta : List (String × String)
deriving Repr, DecidableEq

/-- src/types.rs `TabRecord::new`. -/
def TabRecord.new (tab_name session now : String) : TabRecord :=
  ⟨tab_name, session, none, now, now, []⟩

/-- src/types.rs `TabRecord::with_correlation_id`. -/
def TabRecord.with_correlation_id (r : TabRecord) (cid : String) : TabRecord :=
  { r with correlation_id := some cid }

/-- src/types.rs `TabRecord::with_meta`. -/
def TabRecord.with_meta (r : TabRecord) (m : List (String × String)) : TabRecord :=
  { r with meta := m }

/-- src/types.rs `TabRecord::effective_name`: append `-{correlation_id}`
when a correlation id is present. -/
def TabRecord.effective_name (r : TabRecord) : String :=
  match r.correlation_id with
  | some id => r.tab_name ++ "-" ++ id
  | none => r.tab_name

/-- src/orchestrator.rs `TabCreateResult`. -/
structure TabCreateResult where
  tab_name : String
  correlation_id : Option String
  created : Bool
  session : String
deriving Repr, DecidableEq

/-- The multiplexer environment `create_tab` consults: the active session
name (from the environment) and the tab names the multiplexer reports. -/
structure ZellijEnv where
  active_session : Option String
  tab_names : List String
deriving Repr, DecidableEq

/-- src/orchestrator.rs `Orchestrator::create_tab` (with `now` passed
explicitly).  Returns the `TabCreateResult` and, when a new tab was
created, the `TabRecord` persisted via `upsert_tab`. -/
def create_tab (env : ZellijEnv) (now tab_name : String) (correlation_id : Option String)
    (meta : List (String × String)) : Except String (TabCreateResult × Option TabRecord) :=
  match env.active_session with
  | none => Except.error ("no active session; must be inside a Zellij session")
  | some target_session =>
    let effective_name := match correlation_id with
      | some id => tab_name ++ "-" ++ id
      | none => tab_name
    if env.tab_names.contains effective_name then
      Except.ok (⟨effective_name, correlation_id, false, target_session⟩, none)
    else
      let record := TabRecord.new effective_name target_session now
      let record := match correlation_id with
        | some id => record.with_correlation_id id
        | none => record
      let record := if meta.isEmpty then record else record.with_meta meta
      Except.ok (⟨effective_name, correlation_id, true, target_session⟩, some record)

-- ===========================================================================
-- LLM provider selection and the snapshot pipeline
-- (src/llm/mod.rs create_provider, src/orchestrator.rs snapshot)
-- ===========================================================================

/-- src/llm/mod.rs `LLMConfig` (`max_tokens` as `Nat` for the `u32`). -/
structure LLMConfig where
  provider : String
  anthropic_api_key : Option String
  openai_api_key : Option String
  ollama_url : String
  model : Option String
  max_tokens : Nat
deriving Repr, DecidableEq

/-- src/llm/mod.rs `default_ollama_url`. -/
def default_ollama_url : String := "http://localhost:11434"

/-- The observable surface of a boxed `LLMProvider`: its `name()` and
`is_available()`. -/
structure ProviderModel where
  name : String
  available : Bool
deriving Repr, DecidableEq

/-- src/llm/mod.rs `create_provider`, with the `ANTHROPIC_API_KEY` /
`OPENAI_API_KEY` environment fallbacks passed explicitly.  The HTTP
providers report `is_available` as key/endpoint nonemptiness; every
fallback is the never-available no-op provider. -/
def create_provider (cfg : LLMConfig) (envAnthropicKey envOpenaiKey : Option String) :
    ProviderModel :=
  if cfg.provider == "anthropic" then
    match cfg.anthropic_api_key.orElse (fun _ => envAnthropicKey) with
    | some key => ⟨"anthropic", !key.isEmpty⟩
    | none => ⟨"noop", false⟩
  else if cfg.provider == "openai" then
    match cfg.openai_api_key.orElse (fun _ => envOpenaiKey) with
    | some key => ⟨"openai", !key.isEmpty⟩
    | none => ⟨"noop", false⟩
  else if cfg.provider == "ollama" then
    let endpoint := if cfg.ollama_url.isEmpty then default_ollama_url else cfg.ollama_url
    ⟨"ollama", !endpoint.isEmpty⟩
  else ⟨"noop", false⟩

/-- src/llm/mod.rs `SummarizationResult`. -/
structure SummarizationResult where
  summary : String
  suggested_type : Option String
  key_files : List String
  tokens_used : Option Nat
deriving Repr, DecidableEq

/-- src/orchestrator.rs `SnapshotResult`. -/
structure SnapshotResult where
  summary : String
  entry_type : IntentType
  key_files : List String
  tokens_used : Option Nat
deriving Repr, DecidableEq

/-- The environment of one `Orchestrator::snapshot` call: the clock, the
process-wide breaker state, the key environment variables, and the outcomes
of the external steps (context collection; LLM call, where `none` models
the 30-second timeout firing). -/
structure SnapshotEnv where
  now : Nat
  breaker : CircuitBreaker
  envAnthropicKey : Option String
  envOpenaiKey : Option String
  collector : Except String Unit
  llm : Option (Except String SummarizationResult)
deriving Repr

/-- The observable outcome of `Orchestrator::snapshot`: the returned value
or error, whether `provider.summarize` was invoked, and the breaker state
afterwards. -/
structure SnapshotOutcome where
  result : Except String SnapshotResult
  summarizeInvoked : Bool
  breakerAfter : CircuitBreaker
deriving Repr

/-- The remediation guidance named by the spec for the consent gate. -/
def consentGuidance : String := "zdrive config consent --grant"

/-- The consent-gate error message of `Orchestrator::snapshot` (the Rust
`\n\` line continuations strip the following indentation; the guidance
line is spliced in via `consentGuidance`, yielding the identical string). -/
def consentErrorMessage (provider : String) : String :=
  "LLM consent not granted.\n\nThe snapshot command sends shell history, git diff, and file information\nto "
    ++ sq ++ provider ++ sq
    ++ " for AI-powered summarization.\n\nTo grant consent, run:\n"
    ++ consentGuidance
    ++ "\n\nTo see what data would be sent:\nzdrive config consent --help"

/-- The provider-unavailable error message of `Orchestrator::snapshot`. -/
def notAvailableMessage (provider : String) : String :=
  "LLM provider " ++ sq ++ provider ++ sq
    ++ " is not available. Configure API key or use a different provider."

/-- The timeout error message of `Orchestrator::snapshot` (30-second cap). -/
def snapshotTimeoutMessage (pane_name : String) : String :=
  "LLM request timed out after 30 seconds.\n\nYou can still log entries manually:\nzdrive pane log "
    ++ pane_name ++ " \"<your summary>\""

/-- src/orchestrator.rs `Orchestrator::snapshot` control flow: breaker
admission (skipped for the `none` provider), provider construction and
availability check, consent gate, context collection, the LLM call under
timeout with breaker bookkeeping, and the mapping of `suggested_type` to an
`IntentType`. -/
def snapshot (env : SnapshotEnv) (cfg : LLMConfig) (pane_name : String)
    (consent_given : Bool) : SnapshotOutcome :=
  let breakerCheck : Except String Unit :=
    if cfg.provider == "none" then Except.ok ()
    else allow_request defaultCBConfig env.breaker env.now
  match breakerCheck with
  | Except.error msg => ⟨Except.error msg, false, env.breaker⟩
  | Except.ok _ =>
    let provider := create_provider cfg env.envAnthropicKey env.envOpenaiKey
    if !provider.available then
      ⟨Except.error (notAvailableMessage cfg.provider), false, env.breaker⟩
    else if cfg.provider != "none" && !consent_given then
      ⟨Except.error (consentErrorMessage cfg.provider), false, env.breaker⟩
    else
      match env.collector with
      | Except.error e => ⟨Except.error e, false, env.breaker⟩
      | Except.ok _ =>
        match env.llm with
        | none =>
          let b := if cfg.provider == "none" then env.breaker
            else record_failure defaultCBConfig env.breaker env.now
          ⟨Except.error (snapshotTimeoutMessage pane_name), true, b⟩
        | some (Except.error e) =>
          let b := if cfg.provider == "none" then env.breaker
            else record_failure defaultCBConfig env.breaker env.now
          ⟨Except.error ("LLM summarization failed: " ++ e), true, b⟩
        | some (Except.ok result) =>
          let b := if cfg.provider == "none" then env.breaker
            else record_success env.breaker
          let st := result.suggested_type.getD ""
          let entry_type :=
            if st == "milestone" then IntentType.Milestone
            else if st == "exploration" then IntentType.Exploration
            else IntentType.Checkpoint
          ⟨Except.ok ⟨result.summary, entry_type, result.key_files, result.tokens_used⟩,
            true, b⟩

-- ===========================================================================
-- Snapshot ancestry (src/state.rs get_snapshot_ancestry)
-- ===========================================================================

/-- src/types.rs `SessionSnapshot`, restricted to the fields the ancestry
walk reads (`id`, `parent_id`) plus the identifying `name`/`session`. -/
structure SessionSnapshot where
  id : String
  name : String
  session : String
  parent_id : Option String
deriving Repr, DecidableEq

/-- The `while let` loop of `StateManager::get_snapshot_ancestry`, with an
explicit fuel bound: `none` means the loop was still running after `fuel`
iterations.  `snaps` is what `list_snapshots(session)` returns on every
iteration (the store is not mutated during the walk). -/
def ancestryLoop (snaps : List SessionSnapshot) :
    Nat → SessionSnapshot → List SessionSnapshot → Option (List SessionSnapshot)
  | 0, _, _ => none
  | Nat.succ fuel, current, ancestry =>
    match current.parent_id with
    | none => some ancestry
    | some pid =>
      match snaps.find? (fun s => s.id == pid) with
      | some parent => ancestryLoop snaps fuel parent (ancestry ++ [parent])
      | none => some ancestry

/-- src/state.rs `StateManager::get_snapshot_ancestry` under fuel semantics:
the result list when the loop exits within `fuel` iterations, `none`
otherwise. -/
def get_snapshot_ancestry (snaps : List SessionSnapshot) (start : SessionSnapshot)
    (fuel : Nat) : Option (List SessionSnapshot) :=
  ancestryLoop snaps fuel start [start]

/-- Termination of the ancestry walk: some fuel suffices for the loop to
exit. -/
def ancestryTerminates (snaps : List SessionSnapshot) (start : SessionSnapshot) : Prop :=
  ∃ fuel, (get_snapshot_ancestry snaps start fuel).isSome = true

/-- A two-snapshot cycle: snapshot A whose parent is B. -/
def cycSnapA : SessionSnapshot := ⟨"idA", "A", "dev", some "idB"⟩

/-- A two-snapshot cycle: snapshot B whose parent is A. -/
def cycSnapB : SessionSnapshot := ⟨"idB", "B", "dev", some "idA"⟩

/-- The cyclic session contents `[A, B]`. -/
def cycSnaps : List SessionSnapshot := [cycSnapA, cycSnapB]

-- ===========================================================================
-- Derived notions used to state the migration theorems
-- ===========================================================================

/-- The target key `migrate_keyspace` computes for a legacy key: the pane
name (the remainder after the 10-character `znav:pane:` prefix) under the
`perth:pane:` prefix. -/
def targetOfKey (k : String) : String :=
  "perth:pane:" ++ String.mk (k.toList.drop ("znav:pane:".toList.length))

/-- The per-key migration message `migrate_keyspace` records. -/
def migMsg (k : String) : String := k ++ " -> " ++ targetOfKey k

/-- Whether a non-dry `migrate_keyspace` run over store `base` copies legacy
key `k`: the target does not exist yet and the source hash is nonempty. -/
def toMigrate (base : Store) (k : String) : Bool :=
  !keyExists base (targetOfKey k) && !(hgetall base k).isEmpty

/-- The skip message (if any) a non-dry `migrate_keyspace` run over store
`base` records for legacy key `k`. -/
def skipMsgOf (base : Store) (k : String) : Option String :=
  if keyExists base (targetOfKey k) then some (migMsg k ++ " (already exists)")
  else if (hgetall base k).isEmpty then some (k ++ " (empty)")
  else none

-- ===========================================================================
-- Concrete instances used by witnesses and counterexamples
-- ===========================================================================

/-- A concrete entry codec over `Bool` whose decoder inverts its encoder
(instantiates the serialization interface in witnesses). -/
def boolCodec : EntryCodec Bool :=
  ⟨fun b => if b then "T" else "F",
   fun s => if s == "T" then Except.ok true
     else if s == "F" then Except.ok false
     else Except.error ("decode failure"),
   fun _ => "s", fun _ => "t"⟩

/-- A concrete entry codec over `Nat` with unboundedly many distinct
entries: a number encodes as that many repetitions of a character and
decodes as the stored length. -/
def natHistCodec : EntryCodec Nat :=
  ⟨fun n => String.mk (List.replicate n ('a' : Char)),
   fun s => Except.ok s.toList.length,
   fun _ => "s", fun _ => "t"⟩

/-- A concrete three-element history channel. -/
def c9Channel : PaneChannel := ⟨["T", "F", "T"], []⟩

/-- A concrete milestone entry. -/
def c4Entry : IntentEntry :=
  ⟨"intent-1", "2026-01-07T12:00:00Z", "shipped v1", IntentType.Milestone,
    ["src/a.rs"], none, none, IntentSource.Manual⟩

/-- A concrete checkpoint entry. -/
def c4EntryCheckpoint : IntentEntry :=
  ⟨"intent-2", "2026-01-07T12:01:00Z", "wip", IntentType.Checkpoint, [], none, none,
    IntentSource.Manual⟩

/-- A store holding only the v2-style key `perth:pane:alpha`. -/
def c3Store : Store := [("perth:pane:alpha", [("session", "dev"), ("tab", "work")])]

/-- A store with two migratable legacy panes and one already-migrated pane. -/
def c6Store : Store :=
  [("znav:pane:a", [("session", "dev")]),
   ("znav:pane:b", [("x", "1"), ("y", "2")]),
   ("perth:pane:c", [("z", "3")]),
   ("znav:pane:c", [("w", "4")])]

/-- An LLM configuration selecting the OpenAI provider with a configured key. -/
def c5Cfg : LLMConfig := ⟨"openai", none, some ("sk-test"), "", none, 1024⟩

/-- A snapshot environment with a fresh (Closed) circuit breaker. -/
def c5Env : SnapshotEnv := ⟨1000, CircuitBreaker.initial, none, none, Except.ok (), none⟩

/-- A snapshot environment whose process-wide circuit breaker is Open
(three failures recorded at 1000 ms, clock at 2000 ms, cooldown 5 min). -/
def c5OpenEnv : SnapshotEnv := ⟨2000, ⟨3, 1000⟩, none, none, Except.ok (), none⟩

/-- Whether a snapshot result is an error whose message contains the
consent-grant guidance. -/
def errContainsGuidance : Except String SnapshotResult → Bool
  | Except.error m => strContainsSubstr m consentGuidance
  | Except.ok _ => false

/-- Whether a snapshot result is `Ok`. -/
def snapshotResultIsOk : Except String SnapshotResult → Bool
  | Except.ok _ => true
  | Except.error _ => false

/-- The outcome of a concrete `create_tab` call with a correlation id on a
fresh session. -/
def c8Outcome : Except String (TabCreateResult × Option TabRecord) :=
  create_tab ⟨some ("main"), []⟩ "2026-01-07T12:00:00Z" "myapp" (some ("pr-42")) []

/-- The tab record persisted by the concrete `create_tab` call. -/
def c8StoredRecord : Option TabRecord :=
  match c8Outcome with
  | Except.ok (_, r) => r
  | Except.error _ => none

-- ===========================================================================
-- Theorems
-- ===========================================================================

theorem stripPrefix_of_isPrefix (p k : String) (h : strIsPrefixOf p k = true) :
    stripPrefixStr p k = some (String.mk (k.toList.drop p.toList.length)) := by
  simp [stripPrefixStr, h]

theorem stripPrefixStr_append {p k n : String} (h : stripPrefixStr p k = some n) :
    p ++ n = k := by
  unfold stripPrefixStr at h
  split at h
  · rename_i hpre
    obtain ⟨t, ht⟩ := List.isPrefixOf_iff_prefix.mp hpre
    injection h with h
    apply String.ext
    rw [String.data_append, ← h]
    show p.data ++ (k.toList.drop p.toList.length) = k.data
    rw [← ht, List.drop_left]
    exact ht
  · exact absurd h (by simp)

-- ---------------------------------------------------------------------------
-- C2
-- ---------------------------------------------------------------------------

/-- C2: evaluating the claimed breaker trace with `failure_threshold = 3`,
`cooldown = 5` minutes, failures recorded at 1000 ms and the clock then at
301000 ms (cooldown elapsed).  Two failures leave the state Closed; the
third opens it and `allow_request` errors; after the cooldown the state is
HalfOpen and `allow_request` is OK; `record_success` closes it with a zero
counter.  But `record_failure` from HalfOpen leaves the state HalfOpen with
`allow_request` still OK — the code only stamps `opened_at` when the
counter hits the threshold exactly, so it never re-opens — contradicting
the claimed HalfOpen → Open transition. -/
theorem claim_C2_breaker_trace :
    (cbState defaultCBConfig
        (record_failure defaultCBConfig
          (record_failure defaultCBConfig CircuitBreaker.initial 1000) 1000) 1000
      = CircuitState.Closed)
    ∧ (cbState defaultCBConfig
        (record_failure defaultCBConfig
          (record_failure defaultCBConfig
            (record_failure defaultCBConfig CircuitBreaker.initial 1000) 1000) 1000) 1000
      = CircuitState.Open)
    ∧ allowsRequest defaultCBConfig ⟨3, 1000⟩ 1000 = false
    ∧ cbState defaultCBConfig ⟨3, 1000⟩ 301000 = CircuitState.HalfOpen
    ∧ allowsRequest defaultCBConfig ⟨3, 1000⟩ 301000 = true
    ∧ (record_success ⟨3, 1000⟩).consecutive_failures = 0
    ∧ cbState defaultCBConfig (record_success ⟨3, 1000⟩) 301000 = CircuitState.Closed
    ∧ record_failure defaultCBConfig ⟨3, 1000⟩ 301000 = ⟨4, 1000⟩
    ∧ cbState defaultCBConfig (record_failure defaultCBConfig ⟨3, 1000⟩ 301000) 301000
        = CircuitState.HalfOpen
    ∧ allowsRequest defaultCBConfig (record_failure defaultCBConfig ⟨3, 1000⟩ 301000) 301000
        = true := by
  decide

-- ---------------------------------------------------------------------------
-- C10
-- ---------------------------------------------------------------------------

theorem ancestryLoop_cyc_stepA (n : Nat) (acc : List SessionSnapshot) :
    ancestryLoop cycSnaps (n + 1) cycSnapA acc
      = ancestryLoop cycSnaps n cycSnapB (acc ++ [cycSnapB]) := rfl

theorem ancestryLoop_cyc_stepB (n : Nat) (acc : List SessionSnapshot) :
    ancestryLoop cycSnaps (n + 1) cycSnapB acc
      = ancestryLoop cycSnaps n cycSnapA (acc ++ [cycSnapA]) := rfl

theorem ancestryLoop_cyc_none (fuel : Nat) :
    (∀ acc, ancestryLoop cycSnaps fuel cycSnapA acc = none)
    ∧ (∀ acc, ancestryLoop cycSnaps fuel cycSnapB acc = none) := by
  induction fuel with
  | zero => exact ⟨fun _ => rfl, fun _ => rfl⟩
  | succ n ih =>
    exact ⟨fun acc => (ancestryLoop_cyc_stepA n acc).trans (ih.2 _),
           fun acc => (ancestryLoop_cyc_stepB n acc).trans (ih.1 _)⟩

/-- C10 (counterexample): on the concrete cyclic store where snapshot A's
parent is B and B's parent is A, the ancestry walk started at A never
exits: no amount of fuel makes it return. -/
theorem claim_C10_counterexample : ancestryTerminates cycSnaps cycSnapA = False := by
  apply eq_false
  intro h
  obtain ⟨fuel, h⟩ := h
  rw [get_snapshot_ancestry, (ancestryLoop_cyc_none fuel).1] at h
  exact absurd h (by simp)

/-- C10 (amended): `get_snapshot_ancestry` terminates only when the walk
reaches a snapshot with no `parent_id` or a parent absent from the session;
when the stored `parent_id` links form a cycle (A's parent is B and B's
parent is A within the same session) the loop never exits — after any
number of iterations from any point on the cycle it is still running. -/
theorem claim_C10_cycle_never_exits (fuel : Nat) (acc : List SessionSnapshot)
    (cur : SessionSnapshot) (h : cur = cycSnapA ∨ cur = cycSnapB) :
    ancestryLoop cycSnaps fuel cur acc = none := by
  rcases h with h | h <;> subst h
  · exact (ancestryLoop_cyc_none fuel).1 acc
  · exact (ancestryLoop_cyc_none fuel).2 acc

/-- C10 witness: the amended theorem applied on the cycle with fuel 7. -/
theorem claim_C10_cycle_never_exits_witness :
    (cycSnapA = cycSnapA ∨ cycSnapA = cycSnapB)
    ∧ ancestryLoop cycSnaps 7 cycSnapA [cycSnapA] = none :=
  ⟨Or.inl rfl, claim_C10_cycle_never_exits 7 [cycSnapA] cycSnapA (Or.inl rfl)⟩

-- ---------------------------------------------------------------------------
-- C8
-- ---------------------------------------------------------------------------

/-- C8 (counterexample): `create_tab("myapp", Some("pr-42"), {})` on a fresh
session persists a TabRecord whose stored `tab_name` is the suffixed
`"myapp-pr-42"`, not `"myapp"`, and whose `effective_name()` is therefore
the doubly-suffixed `"myapp-pr-42-pr-42"`, not `"myapp-pr-42"`. -/
theorem claim_C8_counterexample :
    c8StoredRecord.map TabRecord.tab_name = some ("myapp-pr-42")
    ∧ c8StoredRecord.map TabRecord.effective_name = some ("myapp-pr-42-pr-42")
    ∧ (("myapp-pr-42" : String) == "myapp") = false
    ∧ (("myapp-pr-42-pr-42" : String) == "myapp-pr-42") = false := by
  decide

/-- C8 (amended): for every `create_tab(name, Some(C), meta)` that creates a
new tab, the persisted TabRecord stores `tab_name` equal to the suffixed
effective name `"{name}-{C}"` (the stored `tab_name` always carries the
suffix), its `correlation_id` equals `C`, and `effective_name()` of the
persisted record is `"{name}-{C}-{C}"`. -/
theorem claim_C8_created_record_carries_suffix (session now name cid : String)
    (tabs : List String) (meta : List (String × String))
    (hnew : tabs.contains (name ++ "-" ++ cid) = false) :
    create_tab ⟨some session, tabs⟩ now name (some cid) meta =
      Except.ok (⟨name ++ "-" ++ cid, some cid, true, session⟩,
        some ⟨name ++ "-" ++ cid, session, some cid, now, now, meta⟩)
    ∧ TabRecord.effective_name ⟨name ++ "-" ++ cid, session, some cid, now, now, meta⟩
        = name ++ "-" ++ cid ++ "-" ++ cid := by
  have hmem : (name ++ "-" ++ cid) ∉ tabs := by simpa using hnew
  constructor
  · cases meta with
    | nil =>
      simp [create_tab, hmem, TabRecord.new, TabRecord.with_correlation_id,
        TabRecord.with_meta]
    | cons a l =>
      simp [create_tab, hmem, TabRecord.new, TabRecord.with_correlation_id,
        TabRecord.with_meta]
  · rfl

/-- C8 witness: the amended theorem applied to the concrete call. -/
theorem claim_C8_created_record_carries_suffix_witness :
    (([] : List String).contains ("myapp" ++ "-" ++ "pr-42") = false)
    ∧ (create_tab ⟨some ("main"), []⟩ "t0" "myapp" (some ("pr-42")) [] =
        Except.ok (⟨"myapp" ++ "-" ++ "pr-42", some ("pr-42"), true, "main"⟩,
          some ⟨"myapp" ++ "-" ++ "pr-42", "main", some ("pr-42"), "t0", "t0", []⟩)
      ∧ TabRecord.effective_name
          ⟨"myapp" ++ "-" ++ "pr-42", "main", some ("pr-42"), "t0", "t0", []⟩
          = "myapp" ++ "-" ++ "pr-42" ++ "-" ++ "pr-42") :=
  ⟨by decide, claim_C8_created_record_carries_suffix "main" "t0" "myapp" "pr-42" [] [] (by decide)⟩

-- ---------------------------------------------------------------------------
-- C1 and C9: history-list lemmas
-- ---------------------------------------------------------------------------

theorem decodeAll_ok_length {ε : Type} (dec : String → Except String ε) :
    ∀ (xs : List String) (ys : List ε), decodeAll dec xs = Except.ok ys →
      ys.length = xs.length := by
  intro xs
  induction xs with
  | nil =>
    intro ys h
    cases h
    rfl
  | cons a as ih =>
    intro ys h
    unfold decodeAll at h
    cases hfa : dec a with
    | error e => rw [hfa] at h; cases h
    | ok b =>
      rw [hfa] at h
      cases hrest : decodeAll dec as with
      | error e => rw [hrest] at h; cases h
      | ok bs =>
        rw [hrest] at h
        cases h
        simp [ih bs hrest]

theorem decodeAll_enc {ε : Type} (c : EntryCodec ε)
    (hrt : ∀ e, c.dec (c.enc e) = Except.ok e) :
    ∀ xs : List ε, decodeAll c.dec (xs.map c.enc) = Except.ok xs := by
  intro xs
  induction xs with
  | nil => rfl
  | cons a as ih =>
    rw [List.map_cons]
    unfold decodeAll
    rw [hrt a, ih]

theorem redisEffIndex_zero (len : Int) : redisEffIndex len 0 = 0 := by
  simp [redisEffIndex]

theorem lrange_0_99 (l : List String) : lrange l 0 99 = l.take 100 := by
  cases l with
  | nil => rfl
  | cons a t =>
    unfold lrange
    rw [redisEffIndex_zero]
    rw [show redisEffIndex (((a :: t).length : Int)) 99 = 99 from by norm_num [redisEffIndex]]
    have hc : ¬(((99 : Int)) < max 0 0 ∨ (((a :: t).length : Int)) ≤ max 0 0) := by
      simp only [max_self, List.length_cons]
      push_neg
      constructor
      · norm_num
      · push_cast
        omega
    rw [if_neg hc]
    have h99n : Int.toNat 99 = 99 := rfl
    norm_num [h99n]

theorem lrange_neg_one (l : List String) : lrange l 0 (-1) = l := by
  cases l with
  | nil => rfl
  | cons a t =>
    unfold lrange
    rw [redisEffIndex_zero]
    have hm : redisEffIndex (((a :: t).length : Int)) (-1) = ((a :: t).length : Int) - 1 := by
      simp only [redisEffIndex, if_pos (show (-1 : Int) < 0 by norm_num)]
      omega
    rw [hm]
    have hc : ¬((((a :: t).length : Int) - 1) < max 0 0
        ∨ (((a :: t).length : Int)) ≤ max 0 0) := by
      simp only [max_self, List.length_cons]
      push_neg
      constructor
      · push_cast
        omega
      · push_cast
        omega
    rw [if_neg hc]
    simp only [max_self, Int.toNat_zero, List.drop_zero, Nat.sub_zero]
    have harith : ((((a :: t).length : Int)) - 1).toNat + 1 = (a :: t).length := by
      simp only [List.length_cons]
      omega
    rw [harith, List.take_length]

theorem lrange_length_zero_start (l : List String) (stop : Int) :
    (lrange l 0 stop).length ≤ (redisEffIndex l.length stop).toNat + 1 := by
  unfold lrange
  rw [redisEffIndex_zero]
  norm_num
  split
  · simp
  · simp only [List.length_take, List.length_drop]
    omega

/-- The `(limit - 1) as isize` end index evaluates to 99 at the default
limit. -/
theorem usize_stop_100 : usizeAsIsize (usizeWrappingSub 100 1) = 99 := by decide

/-- The `(limit - 1) as isize` end index underflows to -1 at limit 0. -/
theorem usize_stop_0 : usizeAsIsize (usizeWrappingSub 0 1) = -1 := by decide

theorem take_append_take {α : Type} (a b : List α) (n : Nat) :
    (a ++ b.take n).take n = (a ++ b).take n := by
  rw [List.take_append_eq_append_take, List.take_append_eq_append_take, List.take_take]
  congr 1
  exact congrArg b.take (Nat.min_eq_left (Nat.sub_le _ _))

theorem log_intent_history_foldl {ε : Type} (c : EntryCodec ε) :
    ∀ (es : List ε) (h : List String) (ph : Hash), h.length ≤ 100 →
      (es.foldl (log_intent c) ⟨h, ph⟩).history = ((es.map c.enc).reverse ++ h).take 100 := by
  intro es
  induction es with
  | nil =>
    intro h ph hlen
    simpa using (List.take_of_length_le hlen).symm
  | cons e es ih =>
    intro h ph hlen
    rw [List.foldl_cons]
    have hstep : log_intent c ⟨h, ph⟩ e =
        ⟨(c.enc e :: h).take 100,
          hashSetField (hashSetField ph ("last_intent") (c.summaryOf e))
            ("last_intent_at") (c.timestampOf e)⟩ := by
      show (⟨ltrim (lpush h (c.enc e)) 0 ((DEFAULT_HISTORY_LIMIT : Int) - 1), _⟩ :
          PaneChannel) = _
      have : ((DEFAULT_HISTORY_LIMIT : Int) - 1) = 99 := by
        norm_num [DEFAULT_HISTORY_LIMIT]
      rw [this]
      show (⟨lrange (c.enc e :: h) 0 99, _⟩ : PaneChannel) = _
      rw [lrange_0_99]
    rw [hstep, ih _ _ (by simp)]
    rw [take_append_take]
    congr 1
    rw [List.map_cons, List.reverse_cons, List.append_assoc]
    rfl

/-- C1: starting from an empty history, after logging the entries `es` in
order, `get_history(P, None)` returns exactly the last `min(N, 100)` logged
entries newest-first (`N = es.length`); in particular after the 101st log
the first entry logged is no longer retrievable.  Serialization is any
encoder/decoder pair that round-trips. -/
theorem claim_C1_history_trim {ε : Type} (c : EntryCodec ε)
    (hrt : ∀ e, c.dec (c.enc e) = Except.ok e) (es : List ε) :
    get_history c (es.foldl (log_intent c) emptyPaneChannel) none
      = Except.ok (es.reverse.take 100)
    ∧ (es.reverse.take 100).length = min es.length 100
    ∧ (∀ e0, 101 ≤ es.length → es.Nodup → es.head? = some e0 →
        e0 ∉ es.reverse.take 100) := by
  refine ⟨?_, ?_, ?_⟩
  · unfold get_history
    have hst : usizeAsIsize (usizeWrappingSub ((none : Option Nat).getD DEFAULT_HISTORY_LIMIT) 1)
        = 99 := by decide
    rw [hst, show emptyPaneChannel = (⟨[], []⟩ : PaneChannel) from rfl]
    rw [log_intent_history_foldl c es [] [] (by simp), lrange_0_99]
    rw [List.append_nil, List.take_take, Nat.min_self]
    rw [← List.map_reverse, ← List.map_take]
    exact decodeAll_enc c hrt _
  · rw [List.length_take, List.length_reverse, Nat.min_comm]
  · intro e0 h101 hnodup hhead hmem
    cases es with
    | nil => simp at hhead
    | cons a es =>
      have ha : a = e0 := by simpa using hhead
      subst ha
      rw [List.reverse_cons] at hmem
      have hlen : 100 ≤ es.reverse.length := by
        simp at h101 ⊢
        omega
      rw [List.take_append_of_le_length hlen] at hmem
      have : a ∈ es := List.mem_reverse.mp (List.take_subset _ _ hmem)
      exact (List.nodup_cons.mp hnodup).1 this

/-- C9: `get_history(pane, Some(limit))` returns at most `limit` entries for
every `limit ≥ 1` (for any history shorter than `2^64`, the `usize` range);
at `limit = 0` the unsigned subtraction `limit - 1` wraps to `usize::MAX`,
whose `as isize` cast is `-1`, so the call retrieves the *entire* history —
in particular it does not return the empty list whenever the history is
nonempty. -/
theorem claim_C9_limit_zero_underflow {ε : Type} (c : EntryCodec ε) (pc : PaneChannel) :
    (∀ (limit : Nat) (res : List ε), 1 ≤ limit → pc.history.length < 2 ^ 64 →
        get_history c pc (some limit) = Except.ok res → res.length ≤ limit)
    ∧ get_history c pc (some 0) = decodeAll c.dec pc.history
    ∧ (pc.history ≠ [] → ∀ res : List ε, get_history c pc (some 0) = Except.ok res →
        res ≠ []) := by
  have hzero : ∀ pc' : PaneChannel, get_history (ε := ε) c pc' (some 0)
      = decodeAll c.dec pc'.history := by
    intro pc'
    unfold get_history
    rw [show usizeAsIsize (usizeWrappingSub ((some 0).getD DEFAULT_HISTORY_LIMIT) 1)
        = -1 from by decide]
    rw [lrange_neg_one]
  refine ⟨?_, hzero pc, ?_⟩
  · intro limit res hlim hlen hres
    unfold get_history at hres
    have hraw := decodeAll_ok_length c.dec _ res hres
    have hb := lrange_length_zero_start pc.history
      (usizeAsIsize (usizeWrappingSub ((some limit).getD DEFAULT_HISTORY_LIMIT) 1))
    rw [← hraw] at hb
    refine le_trans hb ?_
    rw [show (some limit).getD DEFAULT_HISTORY_LIMIT = limit from rfl]
    unfold usizeAsIsize usizeWrappingSub redisEffIndex
    have hw : (limit % 2 ^ 64 + (2 ^ 64 - 1 % 2 ^ 64)) % 2 ^ 64 = (limit - 1) % 2 ^ 64 := by
      omega
    rw [hw]
    have hw1 : (limit - 1) % 2 ^ 64 % 2 ^ 64 = (limit - 1) % 2 ^ 64 := by omega
    rw [hw1]
    have hle : (limit - 1) % 2 ^ 64 ≤ limit - 1 := Nat.mod_le _ _
    have hlt : (limit - 1) % 2 ^ 64 < 2 ^ 64 := Nat.mod_lt _ (by norm_num)
    split
    · split
      · omega
      · omega
    · split
      · omega
      · omega
  · intro hne res hres
    rw [hzero pc] at hres
    have := decodeAll_ok_length c.dec _ res hres
    intro hresnil
    rw [hresnil] at this
    simp at this
    exact hne (List.length_eq_zero.mp this.symm)

/-- C1 witness: the trim behaviour at 101 concrete distinct logged entries:
the call returns the newest 100 and the first entry logged (0) is gone. -/
theorem claim_C1_history_trim_witness :
    natHistCodec.dec (natHistCodec.enc 5) = Except.ok 5
    ∧ get_history natHistCodec ((List.range 101).foldl (log_intent natHistCodec)
        emptyPaneChannel) none = Except.ok ((List.range 101).reverse.take 100)
    ∧ ((List.range 101).reverse.take 100).length = min (List.range 101).length 100
    ∧ (101 ≤ (List.range 101).length ∧ (List.range 101).Nodup
        ∧ (List.range 101).head? = some 0
        ∧ (0 : Nat) ∉ (List.range 101).reverse.take 100) := by
  have hrt : ∀ e : Nat, natHistCodec.dec (natHistCodec.enc e) = Except.ok e := by
    intro e
    simp [natHistCodec]
  exact ⟨hrt 5, (claim_C1_history_trim natHistCodec hrt (List.range 101)).1,
    (claim_C1_history_trim natHistCodec hrt (List.range 101)).2.1,
    by decide, by simp [List.nodup_range], by decide,
    (claim_C1_history_trim natHistCodec hrt (List.range 101)).2.2 0 (by decide)
      (by simp [List.nodup_range]) (by decide)⟩

/-- C9 witness: limit 2 on a three-element history returns two entries;
limit 0 returns the whole (nonempty) history. -/
theorem claim_C9_limit_zero_underflow_witness :
    ((1 : Nat) ≤ 2 ∧ c9Channel.history.length < 2 ^ 64
      ∧ get_history boolCodec c9Channel (some 2) = Except.ok [true, false]
      ∧ ([true, false] : List Bool).length ≤ 2)
    ∧ get_history boolCodec c9Channel (some 0) = decodeAll boolCodec.dec c9Channel.history
    ∧ (c9Channel.history ≠ []
      ∧ get_history boolCodec c9Channel (some 0) = Except.ok [true, false, true]
      ∧ ([true, false, true] : List Bool) ≠ []) := by
  refine ⟨⟨by decide, by decide, rfl,
      (claim_C9_limit_zero_underflow boolCodec c9Channel).1 2 [true, false]
        (by decide) (by decide) rfl⟩,
    (claim_C9_limit_zero_underflow boolCodec c9Channel).2.1,
    by simp [c9Channel], rfl,
    (claim_C9_limit_zero_underflow boolCodec c9Channel).2.2
      (by simp [c9Channel]) [true, false, true] rfl⟩

-- ---------------------------------------------------------------------------
-- Store frame lemmas (shared by C3, C6, C7)
-- ---------------------------------------------------------------------------

theorem find?_map_update (st : Store) (k : String) (fields : List (String × String))
    (k' : String) (h : k' ≠ k) :
    (st.map (fun e => if e.1 == k then (k, hashSetFields e.2 fields) else e)).find?
        (fun e => e.1 == k')
      = st.find? (fun e => e.1 == k') := by
  induction st with
  | nil => rfl
  | cons e t ih =>
    simp only [List.map_cons]
    by_cases hek : e.1 = k
    · rw [if_pos (by simp [hek])]
      rw [List.find?_cons, List.find?_cons]
      have h1 : (k == k') = false := by simp [Ne.symm h]
      have h2 : (e.1 == k') = false := by simp [hek, Ne.symm h]
      simp only [h1, h2]
      exact ih
    · rw [if_neg (by simp [hek])]
      rw [List.find?_cons, List.find?_cons]
      cases hk' : (e.1 == k') with
      | true => rfl
      | false => exact ih

theorem hgetall_hset_multiple_ne (st : Store) (k : String)
    (fields : List (String × String)) (k' : String) (h : k' ≠ k) :
    hgetall (hset_multiple st k fields) k' = hgetall st k' := by
  unfold hset_multiple
  split
  · unfold hgetall
    rw [find?_map_update st k fields k' h]
  · unfold hgetall
    rw [List.find?_append]
    have hnone : List.find? (fun e => e.1 == k') [(k, hashSetFields [] fields)] = none := by
      simp [List.find?_cons, Ne.symm h]
    rw [hnone]
    cases st.find? (fun e => e.1 == k') <;> rfl

theorem storeKeys_hset_multiple (st : Store) (k : String)
    (fields : List (String × String)) :
    storeKeys (hset_multiple st k fields)
      = if keyExists st k then storeKeys st else storeKeys st ++ [k] := by
  unfold hset_multiple
  split
  · unfold storeKeys
    rw [List.map_map]
    apply List.map_congr_left
    intro e _
    by_cases hek : e.1 = k
    · simp [hek]
    · simp [hek]
  · unfold storeKeys
    simp

theorem keyExists_hset_multiple (st : Store) (k : String)
    (fields : List (String × String)) (k' : String) :
    keyExists (hset_multiple st k fields) k' = (keyExists st k' || (k' == k)) := by
  unfold keyExists
  rw [storeKeys_hset_multiple]
  split
  · rename_i hex
    by_cases hk : k' = k
    · subst hk
      simp only [show (k' == k') = true by simp, Bool.or_true]
      exact hex
    · simp [hk]
  · simp [List.contains]
    rfl

theorem keyExists_hset_multiple_ne (st : Store) (k : String)
    (fields : List (String × String)) (k' : String) (h : k' ≠ k) :
    keyExists (hset_multiple st k fields) k' = keyExists st k' := by
  rw [keyExists_hset_multiple]
  simp [h]

-- ---------------------------------------------------------------------------
-- C3
-- ---------------------------------------------------------------------------

/-- C3 (counterexample): with the store holding only `perth:pane:alpha`,
`get_pane("alpha")` misses it — the operation does not address the v2 key:
`pane_key` produces `znav:pane:alpha`, not `perth:pane:alpha`. -/
theorem claim_C3_counterexample :
    get_pane c3Store "alpha" = none
    ∧ keyExists c3Store ("perth:pane:" ++ "alpha") = true
    ∧ (pane_key "alpha" == "perth:pane:" ++ "alpha") = false
    ∧ pane_key "alpha" = "znav:pane:" ++ "alpha" := by
  refine ⟨rfl, rfl, by decide, rfl⟩

/-- C3 (amended): every pane-record operation of the State Store addresses
the legacy v1 key `znav:pane:{name}`: `pane_key` is the name prefixed with
`znav:pane:`; the writes of `upsert_pane`, `touch_pane`, `mark_seen` and
`mark_stale` touch no other key; `get_pane` depends only on the hash at
that key; and every name produced by the `list_pane_names` scan comes from
a store key of the form `znav:pane:{name}`. -/
theorem claim_C3_ops_use_znav_prefix (st st' : Store) (name now : String)
    (record : PaneRecord) (meta : List (String × String)) (k : String) :
    pane_key name = "znav:pane:" ++ name
    ∧ (k ≠ "znav:pane:" ++ record.pane_name →
        hgetall (upsert_pane st record) k = hgetall st k
        ∧ keyExists (upsert_pane st record) k = keyExists st k)
    ∧ (k ≠ "znav:pane:" ++ name →
        hgetall (touch_pane st name now meta) k = hgetall st k
        ∧ hgetall (mark_seen st name now) k = hgetall st k
        ∧ hgetall (mark_stale st name) k = hgetall st k)
    ∧ (hgetall st ("znav:pane:" ++ name) = hgetall st' ("znav:pane:" ++ name) →
        get_pane st name = get_pane st' name)
    ∧ (∀ n ∈ list_pane_names st, ("znav:pane:" ++ n) ∈ storeKeys st) := by
  refine ⟨rfl, ?_, ?_, ?_, ?_⟩
  · intro h
    exact ⟨hgetall_hset_multiple_ne st _ _ k h,
      keyExists_hset_multiple_ne st _ _ k h⟩
  · intro h
    exact ⟨hgetall_hset_multiple_ne st _ _ k h,
      hgetall_hset_multiple_ne st _ _ k h,
      hgetall_hset_multiple_ne st _ _ k h⟩
  · intro h
    unfold get_pane
    rw [show pane_key name = "znav:pane:" ++ name from rfl, h]
  · intro n hn
    unfold list_pane_names at hn
    obtain ⟨kk, hkk, hstrip⟩ := List.mem_filterMap.mp hn
    have hk := stripPrefixStr_append hstrip
    rw [hk]
    unfold scanMatchPrefix at hkk
    exact List.mem_of_mem_filter hkk

/-- C3 witness: the amended theorem applied at a concrete store, record and
frame key. -/
theorem claim_C3_ops_use_znav_prefix_witness :
    pane_key "alpha" = "znav:pane:" ++ "alpha"
    ∧ (("other" : String) ≠ "znav:pane:" ++ "alpha"
      ∧ hgetall (upsert_pane c3Store (initialPaneRecord "alpha")) "other"
          = hgetall c3Store "other") := by
  have h := claim_C3_ops_use_znav_prefix c3Store c3Store "alpha" "t0"
    (initialPaneRecord "alpha") [] "other"
  exact ⟨h.1, by decide, (h.2.1 (by decide)).1⟩

-- ---------------------------------------------------------------------------
-- C5
-- ---------------------------------------------------------------------------

theorem listContainsSub_append_middle (a g b : List Char) :
    listContainsSub (a ++ g ++ b) g = true := by
  unfold listContainsSub
  rw [List.any_eq_true]
  refine ⟨a.length, ?_, ?_⟩
  · rw [List.mem_range]
    simp
    omega
  · rw [List.append_assoc, List.drop_left]
    exact List.isPrefixOf_iff_prefix.mpr ⟨b, rfl⟩

theorem strContainsSubstr_append_middle (a g b : String) :
    strContainsSubstr (a ++ g ++ b) g = true := by
  unfold strContainsSubstr
  have h : (a ++ g ++ b).toList = a.toList ++ g.toList ++ b.toList := by
    show (a ++ g ++ b).data = a.data ++ g.data ++ b.data
    rw [String.data_append, String.data_append]
  rw [h]
  exact listContainsSub_append_middle _ _ _

theorem consentErrorMessage_contains_guidance (provider : String) :
    strContainsSubstr (consentErrorMessage provider) consentGuidance = true := by
  unfold consentErrorMessage
  rw [show "LLM consent not granted.\n\nThe snapshot command sends shell history, git diff, and file information\nto "
      ++ sq ++ provider ++ sq
      ++ " for AI-powered summarization.\n\nTo grant consent, run:\n"
      ++ consentGuidance
      ++ "\n\nTo see what data would be sent:\nzdrive config consent --help"
    = ("LLM consent not granted.\n\nThe snapshot command sends shell history, git diff, and file information\nto "
      ++ sq ++ provider ++ sq
      ++ " for AI-powered summarization.\n\nTo grant consent, run:\n")
      ++ consentGuidance
      ++ "\n\nTo see what data would be sent:\nzdrive config consent --help" from by
    simp [String.append_assoc]]
  exact strContainsSubstr_append_middle _ _ _

set_option maxRecDepth 10000 in
/-- C5 (counterexample): a snapshot call with an available non-`none`
provider and no consent, made while the process-wide circuit breaker is
Open, fails with the breaker-denial message — an error that does not
contain the consent-grant guidance — so the claim as stated (every such
call errors with the consent guidance) is false; `summarize` is still
never invoked. -/
theorem claim_C5_counterexample :
    (c5Cfg.provider == "none") = false
    ∧ (create_provider c5Cfg c5OpenEnv.envAnthropicKey c5OpenEnv.envOpenaiKey).available = true
    ∧ snapshotResultIsOk ((snapshot c5OpenEnv c5Cfg "alpha" false).result) = false
    ∧ errContainsGuidance ((snapshot c5OpenEnv c5Cfg "alpha" false).result) = false
    ∧ (snapshot c5OpenEnv c5Cfg "alpha" false).summarizeInvoked = false := by
  refine ⟨rfl, rfl, rfl, ?_, rfl⟩
  decide

/-- C5 (amended): for every snapshot call with `provider ≠ "none"`, an
available provider, `consent_given = false`, and the circuit breaker
admitting the request, the operation fails with exactly the consent-gate
error — whose message contains the consent-grant guidance — and the
provider's summarise function is never invoked, so no data leaves the
process. -/
theorem claim_C5_consent_gate (env : SnapshotEnv) (cfg : LLMConfig) (pane : String)
    (hp : (cfg.provider == "none") = false)
    (hav : (create_provider cfg env.envAnthropicKey env.envOpenaiKey).available = true)
    (hcb : allow_request defaultCBConfig env.breaker env.now = Except.ok ()) :
    snapshot env cfg pane false
      = ⟨Except.error (consentErrorMessage cfg.provider), false, env.breaker⟩
    ∧ strContainsSubstr (consentErrorMessage cfg.provider) consentGuidance = true := by
  refine ⟨?_, consentErrorMessage_contains_guidance cfg.provider⟩
  unfold snapshot
  rw [hp]
  simp only [Bool.false_eq_true, if_false, hcb]
  rw [hav]
  simp [hp]
  intro h
  rw [h] at hp
  simp at hp

/-- C5 witness: the amended theorem at a concrete configured provider and a
fresh (Closed) breaker. -/
theorem claim_C5_consent_gate_witness :
    ((c5Cfg.provider == "none") = false
      ∧ (create_provider c5Cfg c5Env.envAnthropicKey c5Env.envOpenaiKey).available = true
      ∧ allow_request defaultCBConfig c5Env.breaker c5Env.now = Except.ok ())
    ∧ (snapshot c5Env c5Cfg "alpha" false
        = ⟨Except.error (consentErrorMessage c5Cfg.provider), false, c5Env.breaker⟩
      ∧ strContainsSubstr (consentErrorMessage c5Cfg.provider) consentGuidance = true) :=
  ⟨⟨rfl, rfl, rfl⟩, claim_C5_consent_gate c5Env c5Cfg "alpha" rfl rfl rfl⟩

-- ---------------------------------------------------------------------------
-- C4
-- ---------------------------------------------------------------------------

/-- C4: a single `log_intent` call with a milestone entry issues exactly two
publisher emissions, `perth.intent.logged` then `perth.milestone.recorded`;
any other entry type issues exactly `perth.intent.logged` alone; all
emissions of one call share the same metadata, and each carries the
entry's `intent_id`. -/
theorem claim_C4_milestone_duality (pane_name : String) (entry : IntentEntry)
    (session : Option String) :
    (entry.entry_type = IntentType.Milestone →
      (orchestratorLogIntentEmissions pane_name entry session).map Emission.event_type
        = ["perth.intent.logged", "perth.milestone.recorded"])
    ∧ (entry.entry_type ≠ IntentType.Milestone →
      (orchestratorLogIntentEmissions pane_name entry session).map Emission.event_type
        = ["perth.intent.logged"])
    ∧ (∀ e1 ∈ orchestratorLogIntentEmissions pane_name entry session,
        ∀ e2 ∈ orchestratorLogIntentEmissions pane_name entry session,
          e1.metadata = e2.metadata)
    ∧ (∀ e ∈ orchestratorLogIntentEmissions pane_name entry session,
        e.intentId = entry.id) := by
  unfold orchestratorLogIntentEmissions intent_logged
  by_cases h : entry.entry_type = IntentType.Milestone <;>
    simp [h, Emission.intentId, IntentLoggedPayload.new, MilestoneRecordedPayload.new]

/-- C4 witness: the duality at a concrete milestone and a concrete
checkpoint entry. -/
theorem claim_C4_milestone_duality_witness :
    (c4Entry.entry_type = IntentType.Milestone
      ∧ (orchestratorLogIntentEmissions "alpha" c4Entry (some ("dev"))).map Emission.event_type
          = ["perth.intent.logged", "perth.milestone.recorded"])
    ∧ (c4EntryCheckpoint.entry_type ≠ IntentType.Milestone
      ∧ (orchestratorLogIntentEmissions "alpha" c4EntryCheckpoint (some ("dev"))).map
            Emission.event_type
          = ["perth.intent.logged"]) :=
  ⟨⟨rfl, (claim_C4_milestone_duality "alpha" c4Entry (some ("dev"))).1 rfl⟩,
   ⟨by decide, (claim_C4_milestone_duality "alpha" c4EntryCheckpoint (some ("dev"))).2.1
      (by decide)⟩⟩

-- ---------------------------------------------------------------------------
-- C6 and C7: keyspace migration
-- ---------------------------------------------------------------------------

theorem targetOfKey_def (k : String) :
    "perth:pane:" ++ String.mk (k.toList.drop ("znav:pane:".toList.length)) = targetOfKey k := rfl

theorem isPrefixOf_cons_cons (a b : Char) (as bs : List Char) :
    (a :: as).isPrefixOf (b :: bs) = ((a == b) && as.isPrefixOf bs) := rfl

theorem znav_not_prefix_perth (x : String) :
    strIsPrefixOf "znav:pane:" ("perth:pane:" ++ x) = false := by
  unfold strIsPrefixOf
  have h1 : ("znav:pane:" : String).toList = 'z' :: ("nav:pane:" : String).toList := rfl
  have h2 : ("perth:pane:" ++ x).toList = 'p' :: (("erth:pane:" : String).toList ++ x.toList) := by
    show ("perth:pane:" ++ x).data = 'p' :: (("erth:pane:" : String).data ++ x.data)
    rw [String.data_append]
    rfl
  rw [h1, h2, isPrefixOf_cons_cons]
  rw [show (('z' : Char) == 'p') = false from rfl]
  simp

theorem znav_key_ne_target (k k' : String) (h : strIsPrefixOf "znav:pane:" k = true) :
    k ≠ targetOfKey k' := by
  unfold targetOfKey
  intro he
  rw [he, znav_not_prefix_perth] at h
  cases h

theorem targetOfKey_inj (k1 k2 : String)
    (h1 : strIsPrefixOf "znav:pane:" k1 = true)
    (h2 : strIsPrefixOf "znav:pane:" k2 = true)
    (hne : k1 ≠ k2) : targetOfKey k1 ≠ targetOfKey k2 := by
  intro he
  apply hne
  unfold targetOfKey at he
  have hd := congrArg String.data he
  rw [String.data_append, String.data_append] at hd
  have hd' : k1.toList.drop (("znav:pane:" : String).toList.length)
      = k2.toList.drop (("znav:pane:" : String).toList.length) := List.append_cancel_left hd
  unfold strIsPrefixOf at h1 h2
  obtain ⟨t1, ht1⟩ := List.isPrefixOf_iff_prefix.mp h1
  obtain ⟨t2, ht2⟩ := List.isPrefixOf_iff_prefix.mp h2
  have e1 : k1.toList.drop (("znav:pane:" : String).toList.length) = t1 := by
    rw [← ht1, List.drop_left]
  have e2 : k2.toList.drop (("znav:pane:" : String).toList.length) = t2 := by
    rw [← ht2, List.drop_left]
  rw [e1, e2] at hd'
  apply String.ext
  show k1.toList = k2.toList
  rw [← ht1, ← ht2, hd']

theorem hgetall_nonempty_of_mem (st : Store) (hne : NonemptyHashes st) (k : String)
    (hk : k ∈ storeKeys st) : (hgetall st k).isEmpty = false := by
  induction st with
  | nil => simp [storeKeys] at hk
  | cons e t ih =>
    by_cases hek : e.1 = k
    · have hg : hgetall (e :: t) k = e.2 := by
        unfold hgetall
        rw [List.find?_cons, show (e.1 == k) = true from by simp [hek]]
      rw [hg]
      have h2 := hne e (List.mem_cons_self e t)
      simpa [List.isEmpty_iff] using h2
    · have hg : hgetall (e :: t) k = hgetall t k := by
        unfold hgetall
        rw [List.find?_cons, show (e.1 == k) = false from by simp [hek]]
      rw [hg]
      have hkt : k ∈ storeKeys t := by
        unfold storeKeys at hk
        rcases List.mem_cons.mp hk with h | h
        · exact absurd h.symm hek
        · exact h
      exact ih (fun x hx => hne x (List.mem_cons_of_mem e hx)) hkt

theorem scanZnavPane_mem (st : Store) (k : String) (hk : k ∈ scanZnavPane st) :
    strIsPrefixOf "znav:pane:" k = true ∧ k ∈ storeKeys st := by
  unfold scanZnavPane at hk
  refine ⟨?_, List.mem_of_mem_filter hk⟩
  have := List.of_mem_filter hk
  exact (Bool.and_eq_true _ _).mp this |>.1

theorem scanZnavPane_nodup (st : Store) (h : WFStore st) : (scanZnavPane st).Nodup :=
  List.Nodup.filter _ h

theorem scanZnavPane_keys_append (st st' : Store) (L : List String)
    (hkeys : storeKeys st' = storeKeys st ++ L)
    (hL : ∀ q ∈ L, ∃ y, q = "perth:pane:" ++ y) :
    scanZnavPane st' = scanZnavPane st := by
  unfold scanZnavPane
  rw [hkeys, List.filter_append]
  have hnil : L.filter
      (fun k => strIsPrefixOf ("znav:pane:") k && !(strContainsSubstr k (":history"))) = [] := by
    rw [List.filter_eq_nil_iff]
    intro q hq
    obtain ⟨y, hy⟩ := hL q hq
    subst hy
    rw [znav_not_prefix_perth]
    simp
  rw [hnil, List.append_nil]

theorem migrate_fold_dry (base : Store) :
    ∀ (KS : List String) (r0 : MigrationResult) (s0 : Store),
      (∀ k ∈ KS, strIsPrefixOf "znav:pane:" k = true) →
      (∀ k ∈ KS, keyExists s0 (targetOfKey k) = keyExists base (targetOfKey k)) →
      (KS.foldl (migStep true) (r0, s0)).2 = s0
      ∧ (KS.foldl (migStep true) (r0, s0)).1.migrated_count
          = r0.migrated_count + (KS.filter (fun k => !keyExists base (targetOfKey k))).length
      ∧ (KS.foldl (migStep true) (r0, s0)).1.skipped_count
          = r0.skipped_count + (KS.filter (fun k => keyExists base (targetOfKey k))).length
      ∧ (KS.foldl (migStep true) (r0, s0)).1.error_count = r0.error_count
      ∧ (KS.foldl (migStep true) (r0, s0)).1.total_keys = r0.total_keys := by
  intro KS
  induction KS with
  | nil =>
    intro r0 s0 _ _
    exact ⟨rfl, by simp, by simp, rfl, rfl⟩
  | cons k ks ih =>
    intro r0 s0 hpre hex
    have hk : strIsPrefixOf "znav:pane:" k = true := hpre k (List.mem_cons_self k ks)
    have hstrip := stripPrefix_of_isPrefix "znav:pane:" k hk
    have hexk : keyExists s0 (targetOfKey k) = keyExists base (targetOfKey k) :=
      hex k (List.mem_cons_self k ks)
    rw [List.foldl_cons]
    cases hbase : keyExists base (targetOfKey k) with
    | true =>
      have hstep : migStep true (r0, s0) k = ({ r0 with
          skipped := r0.skipped ++ [migMsg k ++ " (already exists)"],
          skipped_count := r0.skipped_count + 1 }, s0) := by
        unfold migStep
        simp only [hstrip, targetOfKey_def, hexk, hbase, if_true]
        rfl
      rw [hstep]
      obtain ⟨o1, o2, o3, o4, o5⟩ := ih _ s0
        (fun x hx => hpre x (List.mem_cons_of_mem k hx))
        (fun x hx => hex x (List.mem_cons_of_mem k hx))
      refine ⟨o1, ?_, ?_, o4, o5⟩
      · rw [o2]
        simp [hbase]
      · rw [o3]
        simp [hbase]
        omega
    | false =>
      have hstep : migStep true (r0, s0) k = ({ r0 with
          would_migrate := r0.would_migrate ++ [migMsg k],
          migrated_count := r0.migrated_count + 1 }, s0) := by
        unfold migStep
        simp only [hstrip, targetOfKey_def, hexk, hbase]
        rfl
      rw [hstep]
      obtain ⟨o1, o2, o3, o4, o5⟩ := ih _ s0
        (fun x hx => hpre x (List.mem_cons_of_mem k hx))
        (fun x hx => hex x (List.mem_cons_of_mem k hx))
      refine ⟨o1, ?_, ?_, o4, o5⟩
      · rw [o2]
        simp [hbase]
        omega
      · rw [o3]
        simp [hbase]

theorem migrate_fold_spec (base : Store) :
    ∀ (KS : List String) (r0 : MigrationResult) (s0 : Store),
      (∀ k ∈ KS, strIsPrefixOf "znav:pane:" k = true) →
      KS.Nodup →
      (∀ k ∈ KS, hgetall s0 k = hgetall base k) →
      (∀ k ∈ KS, keyExists s0 (targetOfKey k) = keyExists base (targetOfKey k)) →
      (KS.foldl (migStep false) (r0, s0)).1.migrated
          = r0.migrated ++ (KS.filter (toMigrate base)).map migMsg
      ∧ (KS.foldl (migStep false) (r0, s0)).1.migrated_count
          = r0.migrated_count + (KS.filter (toMigrate base)).length
      ∧ (KS.foldl (migStep false) (r0, s0)).1.skipped
          = r0.skipped ++ KS.filterMap (skipMsgOf base)
      ∧ (KS.foldl (migStep false) (r0, s0)).1.skipped_count
          = r0.skipped_count + (KS.filterMap (skipMsgOf base)).length
      ∧ (KS.foldl (migStep false) (r0, s0)).1.error_count = r0.error_count
      ∧ (KS.foldl (migStep false) (r0, s0)).1.total_keys = r0.total_keys
      ∧ (∀ q, (∀ k ∈ KS, ¬(toMigrate base k = true ∧ q = targetOfKey k)) →
          hgetall (KS.foldl (migStep false) (r0, s0)).2 q = hgetall s0 q
          ∧ keyExists (KS.foldl (migStep false) (r0, s0)).2 q = keyExists s0 q)
      ∧ (∀ k ∈ KS, toMigrate base k = true →
          keyExists (KS.foldl (migStep false) (r0, s0)).2 (targetOfKey k) = true)
      ∧ (∃ L, storeKeys (KS.foldl (migStep false) (r0, s0)).2 = storeKeys s0 ++ L
          ∧ ∀ q ∈ L, ∃ y, q = "perth:pane:" ++ y) := by
  intro KS
  induction KS with
  | nil =>
    intro r0 s0 _ _ _ _
    exact ⟨by simp, by simp, by simp, by simp, rfl, rfl,
      fun q _ => ⟨rfl, rfl⟩, by simp, ⟨[], by simp, by simp⟩⟩
  | cons k ks ih =>
    intro r0 s0 hpre hnd hget hex
    have hk : strIsPrefixOf "znav:pane:" k = true := hpre k (List.mem_cons_self k ks)
    have hstrip := stripPrefix_of_isPrefix "znav:pane:" k hk
    have hexk : keyExists s0 (targetOfKey k) = keyExists base (targetOfKey k) :=
      hex k (List.mem_cons_self k ks)
    have hgetk : hgetall s0 k = hgetall base k := hget k (List.mem_cons_self k ks)
    have hknotin : k ∉ ks := (List.nodup_cons.mp hnd).1
    have hpre' : ∀ x ∈ ks, strIsPrefixOf "znav:pane:" x = true :=
      fun x hx => hpre x (List.mem_cons_of_mem k hx)
    have hnd' : ks.Nodup := (List.nodup_cons.mp hnd).2
    rw [List.foldl_cons]
    cases hbase : keyExists base (targetOfKey k) with
    | true =>
      -- skip: target already exists
      have htm : toMigrate base k = false := by
        unfold toMigrate
        rw [hbase]
        rfl
      have hsm : skipMsgOf base k = some (migMsg k ++ " (already exists)") := by
        unfold skipMsgOf
        rw [if_pos hbase]
      have hstep : migStep false (r0, s0) k = ({ r0 with
          skipped := r0.skipped ++ [migMsg k ++ " (already exists)"],
          skipped_count := r0.skipped_count + 1 }, s0) := by
        unfold migStep
        simp only [hstrip, targetOfKey_def, hexk, hbase, if_true]
        rfl
      rw [hstep]
      obtain ⟨o1, o2, o3, o4, o5, o6, o7, o8, o9⟩ := ih _ s0 hpre' hnd'
        (fun x hx => hget x (List.mem_cons_of_mem k hx))
        (fun x hx => hex x (List.mem_cons_of_mem k hx))
      refine ⟨?_, ?_, ?_, ?_, o5, o6, ?_, ?_, o9⟩
      · rw [o1]
        simp [List.filter_cons, htm]
      · rw [o2]
        simp [List.filter_cons, htm]
      · rw [o3]
        simp [List.filterMap_cons, hsm]
      · rw [o4]
        simp [List.filterMap_cons, hsm]
        omega
      · intro q hq
        exact o7 q (fun x hx => hq x (List.mem_cons_of_mem k hx))
      · intro x hx htmx
        rcases List.mem_cons.mp hx with hxe | hxs
        · subst hxe
          rw [htmx] at htm
          cases htm
        · exact o8 x hxs htmx
    | false =>
      cases hempty : (hgetall base k).isEmpty with
      | true =>
        -- skip: empty source hash
        have htm : toMigrate base k = false := by
          unfold toMigrate
          rw [hbase, hempty]
          rfl
        have hsm : skipMsgOf base k = some (k ++ " (empty)") := by
          unfold skipMsgOf
          rw [if_neg (by simp [hbase]), if_pos hempty]
        have hstep : migStep false (r0, s0) k = ({ r0 with
            skipped := r0.skipped ++ [k ++ " (empty)"],
            skipped_count := r0.skipped_count + 1 }, s0) := by
          unfold migStep
          simp only [hstrip, targetOfKey_def, hexk, hbase, hgetk, hempty]
          rfl
        rw [hstep]
        obtain ⟨o1, o2, o3, o4, o5, o6, o7, o8, o9⟩ := ih _ s0 hpre' hnd'
          (fun x hx => hget x (List.mem_cons_of_mem k hx))
          (fun x hx => hex x (List.mem_cons_of_mem k hx))
        refine ⟨?_, ?_, ?_, ?_, o5, o6, ?_, ?_, o9⟩
        · rw [o1]
          simp [List.filter_cons, htm]
        · rw [o2]
          simp [List.filter_cons, htm]
        · rw [o3]
          simp [List.filterMap_cons, hsm]
        · rw [o4]
          simp [List.filterMap_cons, hsm]
          omega
        · intro q hq
          exact o7 q (fun x hx => hq x (List.mem_cons_of_mem k hx))
        · intro x hx htmx
          rcases List.mem_cons.mp hx with hxe | hxs
          · subst hxe
            rw [htmx] at htm
            cases htm
          · exact o8 x hxs htmx
      | false =>
        -- migrate: copy the hash to the target key
        have htm : toMigrate base k = true := by
          unfold toMigrate
          rw [hbase, hempty]
          rfl
        have hsm : skipMsgOf base k = none := by
          unfold skipMsgOf
          rw [if_neg (by simp [hbase]), if_neg (by simp [hempty])]
        have hstep : migStep false (r0, s0) k = ({ r0 with
            migrated := r0.migrated ++ [migMsg k],
            migrated_count := r0.migrated_count + 1 },
            hset_multiple s0 (targetOfKey k) (hgetall base k)) := by
          unfold migStep
          simp only [hstrip, targetOfKey_def, hexk, hbase, hgetk, hempty]
          rfl
        rw [hstep]
        have hne_tk : ∀ x ∈ ks, x ≠ targetOfKey k :=
          fun x hx => znav_key_ne_target x k (hpre' x hx)
        have hne_tt : ∀ x ∈ ks, targetOfKey x ≠ targetOfKey k := by
          intro x hx
          apply targetOfKey_inj x k (hpre' x hx) hk
          intro he
          subst he
          exact hknotin hx
        obtain ⟨o1, o2, o3, o4, o5, o6, o7, o8, o9⟩ :=
          ih _ (hset_multiple s0 (targetOfKey k) (hgetall base k)) hpre' hnd'
          (fun x hx => by
            rw [hgetall_hset_multiple_ne s0 _ _ x (hne_tk x hx)]
            exact hget x (List.mem_cons_of_mem k hx))
          (fun x hx => by
            rw [keyExists_hset_multiple_ne s0 _ _ (targetOfKey x) (hne_tt x hx)]
            exact hex x (List.mem_cons_of_mem k hx))
        refine ⟨?_, ?_, ?_, ?_, o5, o6, ?_, ?_, ?_⟩
        · rw [o1]
          simp [List.filter_cons, htm]
        · rw [o2]
          simp [List.filter_cons, htm]
          omega
        · rw [o3]
          simp [List.filterMap_cons, hsm]
        · rw [o4]
          simp [List.filterMap_cons, hsm]
        · intro q hq
          have hqk : q ≠ targetOfKey k := by
            intro he
            exact hq k (List.mem_cons_self k ks) ⟨htm, he⟩
          obtain ⟨p1, p2⟩ := o7 q (fun x hx => hq x (List.mem_cons_of_mem k hx))
          rw [p1, p2]
          exact ⟨hgetall_hset_multiple_ne s0 _ _ q hqk,
            keyExists_hset_multiple_ne s0 _ _ q hqk⟩
        · intro x hx htmx
          rcases List.mem_cons.mp hx with hxe | hxs
          · subst hxe
            obtain ⟨_, p2⟩ := o7 (targetOfKey x) (fun z hz => by
              intro hcontra
              exact hne_tt z hz (hcontra.2.symm))
            rw [p2, keyExists_hset_multiple]
            simp
          · exact o8 x hxs htmx
        · obtain ⟨L, hL1, hL2⟩ := o9
          refine ⟨[targetOfKey k] ++ L, ?_, ?_⟩
          · rw [hL1, storeKeys_hset_multiple]
            rw [if_neg (by rw [hexk, hbase]; simp)]
            rw [List.append_assoc]
          · intro q hq
            rcases List.mem_append.mp hq with hq | hq
            · rw [List.mem_singleton.mp hq]
              exact ⟨_, rfl⟩
            · exact hL2 q hq

theorem skipMsgOf_length (base : Store) : ∀ KS : List String,
    (∀ k ∈ KS, (hgetall base k).isEmpty = false) →
    (KS.filterMap (skipMsgOf base)).length
      = (KS.filter (fun k => keyExists base (targetOfKey k))).length := by
  intro KS
  induction KS with
  | nil => intro _; rfl
  | cons k ks ih =>
    intro h
    have ih' := ih (fun x hx => h x (List.mem_cons_of_mem k hx))
    rw [List.filterMap_cons, List.filter_cons]
    cases hb : keyExists base (targetOfKey k) with
    | true =>
      have hs : skipMsgOf base k = some (migMsg k ++ " (already exists)") := by
        unfold skipMsgOf
        rw [if_pos hb]
      rw [hs]
      simp [ih']
    | false =>
      have hs : skipMsgOf base k = none := by
        unfold skipMsgOf
        rw [if_neg (by simp [hb]), if_neg (by simp [h k (List.mem_cons_self k ks)])]
      rw [hs]
      simp [ih']

theorem toMigrate_of_nonempty (base : Store) (k : String)
    (h : (hgetall base k).isEmpty = false) :
    toMigrate base k = !keyExists base (targetOfKey k) := by
  unfold toMigrate
  rw [h]
  simp

/-- C7: `migrate_keyspace(true)` performs no writes — the store is returned
unchanged, so in particular no `perth:pane:X` key is created — and its
`total_keys`/`migrated_count`/`skipped_count`/`error_count` tallies equal
those of a non-dry run over the same store contents (for any well-formed
Redis store: distinct keys, no empty hashes). -/
theorem claim_C7_dry_run_purity (st : Store) (hwf : WFStore st) (hne : NonemptyHashes st) :
    (migrate_keyspace st true).2 = st
    ∧ (∀ name, keyExists (migrate_keyspace st true).2 ("perth:pane:" ++ name)
        = keyExists st ("perth:pane:" ++ name))
    ∧ (migrate_keyspace st true).1.total_keys = (migrate_keyspace st false).1.total_keys
    ∧ (migrate_keyspace st true).1.migrated_count
        = (migrate_keyspace st false).1.migrated_count
    ∧ (migrate_keyspace st true).1.skipped_count
        = (migrate_keyspace st false).1.skipped_count
    ∧ (migrate_keyspace st true).1.error_count
        = (migrate_keyspace st false).1.error_count := by
  have hpre : ∀ k ∈ scanZnavPane st, strIsPrefixOf "znav:pane:" k = true :=
    fun k hk => (scanZnavPane_mem st k hk).1
  have hnd := scanZnavPane_nodup st hwf
  have hmem : ∀ k ∈ scanZnavPane st, (hgetall st k).isEmpty = false :=
    fun k hk => hgetall_nonempty_of_mem st hne k (scanZnavPane_mem st k hk).2
  have hmk1 : migrate_keyspace st true = ((scanZnavPane st).foldl (migStep true)
      ({ emptyMigrationResult with total_keys := (scanZnavPane st).length }, st)) := rfl
  have hmk2 : migrate_keyspace st false = ((scanZnavPane st).foldl (migStep false)
      ({ emptyMigrationResult with total_keys := (scanZnavPane st).length }, st)) := rfl
  obtain ⟨d1, d2, d3, d4, d5⟩ := migrate_fold_dry st (scanZnavPane st)
    { emptyMigrationResult with total_keys := (scanZnavPane st).length } st
    hpre (fun _ _ => rfl)
  obtain ⟨w1, w2, w3, w4, w5, w6, w7, w8, w9⟩ := migrate_fold_spec st (scanZnavPane st)
    { emptyMigrationResult with total_keys := (scanZnavPane st).length } st
    hpre hnd (fun _ _ => rfl) (fun _ _ => rfl)
  have hfiltereq : (scanZnavPane st).filter (toMigrate st)
      = (scanZnavPane st).filter (fun k => !keyExists st (targetOfKey k)) := by
    apply List.filter_congr
    intro k hk
    exact toMigrate_of_nonempty st k (hmem k hk)
  rw [hmk1, hmk2]
  refine ⟨d1, ?_, ?_, ?_, ?_, ?_⟩
  · intro name
    rw [d1]
  · rw [d5, w6]
  · rw [d2, w2, hfiltereq]
  · rw [d3, w4, skipMsgOf_length st (scanZnavPane st) hmem]
  · rw [d4, w5]

/-- C6: migration is idempotent: after a successful non-dry
`migrate_keyspace(false)` run over a well-formed store, an immediately
following non-dry run migrates 0 keys, and every key the first run migrated
is skipped by the second run with the reason "already exists". -/
theorem claim_C6_migration_idempotent (st : Store) (hwf : WFStore st) :
    (migrate_keyspace (migrate_keyspace st false).2 false).1.migrated_count = 0
    ∧ (∀ s ∈ (migrate_keyspace st false).1.migrated,
        (s ++ " (already exists)")
          ∈ (migrate_keyspace (migrate_keyspace st false).2 false).1.skipped) := by
  have hpre : ∀ k ∈ scanZnavPane st, strIsPrefixOf "znav:pane:" k = true :=
    fun k hk => (scanZnavPane_mem st k hk).1
  have hnd := scanZnavPane_nodup st hwf
  have hmk1 : migrate_keyspace st false = ((scanZnavPane st).foldl (migStep false)
      ({ emptyMigrationResult with total_keys := (scanZnavPane st).length }, st)) := rfl
  obtain ⟨w1, w2, w3, w4, w5, w6, w7, w8, w9⟩ := migrate_fold_spec st (scanZnavPane st)
    { emptyMigrationResult with total_keys := (scanZnavPane st).length } st
    hpre hnd (fun _ _ => rfl) (fun _ _ => rfl)
  obtain ⟨L, hL1, hL2⟩ := w9
  set st1 := ((scanZnavPane st).foldl (migStep false)
    ({ emptyMigrationResult with total_keys := (scanZnavPane st).length }, st)).2 with hst1
  have hscan : scanZnavPane st1 = scanZnavPane st := scanZnavPane_keys_append st st1 L hL1 hL2
  -- characterization of the second run
  have hmk2 : migrate_keyspace st1 false = ((scanZnavPane st).foldl (migStep false)
      ({ emptyMigrationResult with total_keys := (scanZnavPane st1).length }, st1)) := by
    unfold migrate_keyspace
    rw [hscan]
  obtain ⟨v1, v2, v3, v4, v5, v6, v7, v8, v9⟩ := migrate_fold_spec st1 (scanZnavPane st)
    { emptyMigrationResult with total_keys := (scanZnavPane st1).length } st1
    hpre hnd (fun _ _ => rfl) (fun _ _ => rfl)
  -- facts about st1 per scanned key
  have hkey_pres : ∀ k ∈ scanZnavPane st, toMigrate st k = false →
      keyExists st1 (targetOfKey k) = keyExists st (targetOfKey k)
      ∧ hgetall st1 k = hgetall st k := by
    intro k hk htk
    constructor
    · exact (w7 (targetOfKey k) (by
        intro x hx hcontra
        by_cases hxk : x = k
        · subst hxk
          rw [hcontra.1] at htk
          cases htk
        · exact targetOfKey_inj x k (hpre x hx) (hpre k hk)
            hxk hcontra.2.symm)).2
    · exact (w7 k (fun x hx hcontra =>
        znav_key_ne_target k x (hpre k hk) hcontra.2)).1
  have htm1 : ∀ k ∈ scanZnavPane st, toMigrate st1 k = false := by
    intro k hk
    cases htk : toMigrate st k with
    | true =>
      have := w8 k hk htk
      unfold toMigrate
      rw [this]
      rfl
    | false =>
      obtain ⟨he, hg⟩ := hkey_pres k hk htk
      unfold toMigrate at htk ⊢
      rw [he, hg]
      exact htk
  refine ⟨?_, ?_⟩
  · rw [hmk1, ← hst1, hmk2, v2]
    have : (scanZnavPane st).filter (toMigrate st1) = [] := by
      rw [List.filter_eq_nil_iff]
      intro k hk
      simp [htm1 k hk]
    rw [this]
    rfl
  · intro s hs
    rw [hmk1] at hs
    rw [w1] at hs
    have hs' : ∃ k, (k ∈ scanZnavPane st ∧ toMigrate st k = true) ∧ migMsg k = s := by
      simpa [emptyMigrationResult] using hs
    obtain ⟨k, ⟨hkKS, htk⟩, hkmsg⟩ := hs'
    rw [hmk1, ← hst1, hmk2, v3]
    have hsm : skipMsgOf st1 k = some (migMsg k ++ " (already exists)") := by
      unfold skipMsgOf
      rw [if_pos (w8 k hkKS htk)]
    have : (migMsg k ++ " (already exists)")
        ∈ (scanZnavPane st).filterMap (skipMsgOf st1) :=
      List.mem_filterMap.mpr ⟨k, hkKS, hsm⟩
    rw [← hkmsg]
    simp [this]

set_option maxRecDepth 10000 in
/-- C7 witness: dry-run purity and count agreement at a concrete store
with two migratable legacy panes and one already-migrated pane. -/
theorem claim_C7_dry_run_purity_witness :
    (WFStore c6Store ∧ NonemptyHashes c6Store)
    ∧ (migrate_keyspace c6Store true).2 = c6Store
    ∧ (migrate_keyspace c6Store true).1.migrated_count
        = (migrate_keyspace c6Store false).1.migrated_count
    ∧ (migrate_keyspace c6Store true).1.skipped_count
        = (migrate_keyspace c6Store false).1.skipped_count := by
  have hwf : WFStore c6Store := by unfold WFStore storeKeys; decide
  have hne : NonemptyHashes c6Store := by unfold NonemptyHashes; decide
  exact ⟨⟨hwf, hne⟩, (claim_C7_dry_run_purity c6Store hwf hne).1,
    (claim_C7_dry_run_purity c6Store hwf hne).2.2.2.1,
    (claim_C7_dry_run_purity c6Store hwf hne).2.2.2.2.1⟩

set_option maxRecDepth 10000 in
/-- C6 witness: idempotence at the concrete store: the second run migrates
0 keys and skips the key the first run migrated, reason "already exists". -/
theorem claim_C6_migration_idempotent_witness :
    WFStore c6Store
    ∧ (migrate_keyspace (migrate_keyspace c6Store false).2 false).1.migrated_count = 0
    ∧ (("znav:pane:a -> perth:pane:a" : String)
        ∈ (migrate_keyspace c6Store false).1.migrated
      ∧ ("znav:pane:a -> perth:pane:a" ++ " (already exists)")
          ∈ (migrate_keyspace (migrate_keyspace c6Store false).2 false).1.skipped) := by
  have hwf : WFStore c6Store := by unfold WFStore storeKeys; decide
  exact ⟨hwf, (claim_C6_migration_idempotent c6Store hwf).1,
    by decide,
    (claim_C6_migration_idempotent c6Store hwf).2 "znav:pane:a -> perth:pane:a" (by decide)⟩

end Perth
